import Mathlib

/-!
# Verification of the ILS connector against its specification

Shallow embedding of the parts of the `ils-connector-ws` service that the
checked claims are about, together with theorems settling each claim.

Conventions used throughout:
* Go strings are Lean `String`s; `strings.ToUpper`/`ToLower` are `String.toUpper`/
  `String.toLower` and `strings.TrimSpace` is `String.trim` (faithful on the
  ASCII keys the service compares).
* A Go nil-pointer that may be absent is an `Option`; dereferencing a nil
  pointer (a runtime panic) is modelled as the `.error`/`panicked` outcome of
  the surrounding computation.
* Upstream HTTP exchanges are modelled by oracle parameters: a function giving,
  for each call the code would make, the observable result of that call
  (success payload or a `requestError`).  The embedded control flow is taken
  from the source; only the network itself is an oracle.
-/

namespace ILS

deriving instance DecidableEq for Except

/-- `strings.ToUpper`, kernel-computable: Go upper-cases each rune; the keys
the service compares are ASCII, on which `Char.toUpper` agrees with Go. -/
def goUpper (s : String) : String := ⟨s.data.map Char.toUpper⟩

/-- `strings.ToLower`, kernel-computable (ASCII-faithful, as `goUpper`). -/
def goLower (s : String) : String := ⟨s.data.map Char.toLower⟩

/-- The white-space class of `strings.TrimSpace` (ASCII part). -/
def isSpaceChar (c : Char) : Bool :=
  c = ' ' || c = '\t' || c = '\n' || c = '\x0b' || c = '\x0c' || c = '\r'

/-- `strings.TrimSpace`, kernel-computable: drop white space from both ends. -/
def goTrim (s : String) : String :=
  ⟨((s.data.dropWhile isSpaceChar).reverse.dropWhile isSpaceChar).reverse⟩

/-- `sirsiMessage` (service.go): one entry of an upstream `messageList`. -/
structure sirsiMessage where
  code : String
  message : String
  deriving DecidableEq, Repr

/-- `requestError` (service.go): status code and raw body of a failed upstream call. -/
structure requestError where
  statusCode : Nat
  message : String
  deriving DecidableEq, Repr

/-! ## 4.D Prompt-override retry engine (`retrySirsiRequest`, dibs.go) -/

/-- New override header value: Go appends `"/" + overridePosifix` to the parsed
prompt type when the posifix argument is non-empty (dibs.go `retrySirsiRequest`). -/
def applyPosifix (overridePosifix p : String) : String :=
  if overridePosifix ≠ "" then p ++ "/" ++ overridePosifix else p

/-- Result of the retry loop.  `trace` records, for each attempt in order, the
`SD-Prompt-Return` header values used on that attempt (the accumulated
`headerOverrides` list, each element added as one distinct header) and the
upstream outcome of the attempt: `none` for success and `some p` for a failure
whose body parses — with Go `json.Unmarshal` zero-value semantics, so an
unparseable body yields `""` — to `dataMap.promptType = p`. -/
structure retryOutcome where
  attempts : Nat
  trace : List (List String × Option String)
  success : Bool
  deriving DecidableEq, Repr

/-- The loop body of `retrySirsiRequest` (dibs.go).  `oracle k` is the outcome
of the `k`-th POST of this invocation.  `fuel` is `5 - attempt`, mirroring the
`for attempt < 5` loop; `attempt` counts attempts already made. -/
def retrySirsiLoop (oracle : Nat → Option String) (overridePosifix : String) :
    Nat → Nat → List String → retryOutcome
  | 0, attempt, _ => ⟨attempt, [], false⟩
  | fuel + 1, attempt, headerOverrides =>
    match oracle (attempt + 1) with
    | none => ⟨attempt + 1, [(headerOverrides, none)], true⟩
    | some p =>
      if p = "" then
        ⟨attempt + 1, [(headerOverrides, some p)], false⟩
      else
        let rest := retrySirsiLoop oracle overridePosifix fuel (attempt + 1)
          (headerOverrides ++ [applyPosifix overridePosifix p])
        ⟨rest.attempts, (headerOverrides, some p) :: rest.trace, rest.success⟩

/-- `retrySirsiRequest` (dibs.go): run the prompt-override loop with the given
base override list, starting from attempt 0 with at most 5 attempts. -/
def retrySirsiRequest (oracle : Nat → Option String) (overrides : List String)
    (overridePosifix : String) : retryOutcome :=
  retrySirsiLoop oracle overridePosifix 5 0 overrides

/-! ## 4.J DIBS state operations (dibs.go) -/

/-- `dibsData` (dibs.go): the home location / item type saved in the
`DIBS-INFO` custom-information entry. -/
structure dibsData where
  homeLocationKey : String
  itemTypeKey : String
  deriving DecidableEq, Repr

/-- One `customInfo` entry (dibs.go).  `key` is
`Fields.ItemExtendedInformation.Key`; `payload` is the `Fields.Data` JSON
string in parsed form: `none` stands for an empty or unparseable string, and
`some d` for a string that `json.Unmarshal` parses to `d` (the only writer,
`setBarcodeInDiBS`, marshals a `dibsData`, which always re-parses). -/
structure customInfo where
  key : String
  payload : Option dibsData
  deriving DecidableEq, Repr

/-- The fields of `sirsiItemInfo` (dibs.go) that the DIBS toggles read or write. -/
structure sirsiItemInfo where
  key : String
  barcode : String
  homeLocationKey : String
  itemTypeKey : String
  customInformation : List customInfo
  deriving DecidableEq, Repr

def dibsLocationKey : String := "DIBS"

def dibsCustomInfoKey : String := "DIBS-INFO"

/-- `getCustomDiBSData` (dibs.go): the first custom-information entry keyed
`DIBS-INFO`, parsed; `none` when there is no such entry or its data is empty
or unparseable. -/
def getCustomDiBSData (item : sirsiItemInfo) : Option dibsData :=
  match item.customInformation.find? (fun ci => ci.key = dibsCustomInfoKey) with
  | none => none
  | some ci => ci.payload

/-- Observable effect of a DIBS toggle handler after the item fetch:
respond OK without a PUT (`noop`), issue the single item PUT with the updated
item (`put`), or dereference a nil pointer (`panicked`). -/
inductive dibsAction where
  | noop : dibsAction
  | put (updated : sirsiItemInfo) : dibsAction
  | panicked : dibsAction
  deriving DecidableEq, Repr

/-- `setBarcodeInDiBS` (dibs.go), after the item fetch: no-op when DIBS data is
present and the item type is already `DIBS`; otherwise save the current home
location and item type in a new `DIBS-INFO` entry, retag the item and PUT it. -/
def setBarcodeInDiBS (item : sirsiItemInfo) : dibsAction :=
  let data := getCustomDiBSData item
  if data ≠ none ∧ item.itemTypeKey = dibsLocationKey then
    .noop
  else
    let dibsCustom : customInfo :=
      ⟨dibsCustomInfoKey, some ⟨item.homeLocationKey, item.itemTypeKey⟩⟩
    .put { item with
      homeLocationKey := dibsLocationKey
      itemTypeKey := dibsLocationKey
      customInformation := item.customInformation ++ [dibsCustom] }

/-- `setBarcodeNotInDiBS` (dibs.go), after the item fetch: no-op when no DIBS
data is present and the item type is not `DIBS`; otherwise restore the saved
keys — dereferencing the parsed data, which is a nil pointer when absent or
unparseable — drop every `DIBS-INFO` entry and PUT the item. -/
def setBarcodeNotInDiBS (item : sirsiItemInfo) : dibsAction :=
  let data := getCustomDiBSData item
  if data = none ∧ item.itemTypeKey ≠ dibsLocationKey then
    .noop
  else
    match data with
    | none => .panicked
    | some dd =>
      .put { item with
        homeLocationKey := dd.homeLocationKey
        itemTypeKey := dd.itemTypeKey
        customInformation :=
          item.customInformation.filter (fun ci => ci.key ≠ dibsCustomInfoKey) }

/-- Composition `nodibs ∘ indibs` on the item state, when both legs issue a PUT. -/
def dibsRoundTrip (item : sirsiItemInfo) : Option sirsiItemInfo :=
  match setBarcodeInDiBS item with
  | .put afterIn =>
    match setBarcodeNotInDiBS afterIn with
    | .put afterOut => some afterOut
    | _ => none
  | _ => none

/-- An item that bears the DIBS item-type tag but has no `DIBS-INFO`
custom-information entry. -/
def dibsTaggedNoInfoItem : sirsiItemInfo :=
  ⟨"190951:3:1", "X001", "DIBS", "DIBS", []⟩

/-- An item whose custom-information already holds a `DIBS-INFO` entry (saved
keys `STACKS`/`BOOK`) while its live keys differ. -/
def dibsStaleInfoItem : sirsiItemInfo :=
  ⟨"190951:3:2", "X002", "IVY-BOOK", "VIDEO-DVD",
    [⟨dibsCustomInfoKey, some ⟨"STACKS", "BOOK"⟩⟩]⟩

/-- An item with one unrelated custom-information entry and no `DIBS-INFO`. -/
def dibsPlainItem : sirsiItemInfo :=
  ⟨"190951:3:3", "X003", "STACKS", "BOOK", [⟨"CIRCNOTE", none⟩]⟩

/-- Concrete upstream behaviour for the retry-engine witness: the first checkout
attempt fails with prompt type `CIRC_NONCHARGEABLE_OVRCD`, the second succeeds. -/
def c1Oracle : Nat → Option String :=
  fun k => if k = 1 then some "CIRC_NONCHARGEABLE_OVRCD" else none

/-! ## 4.H Fill-hold workflow (`fillHold`, requests.go) -/

/-- `sirsiHoldPatron` fields (requests.go). -/
structure sirsiHoldPatron where
  displayName : String
  alternateID : String
  barcode : String
  deriving DecidableEq, Repr

/-- `sirsiHoldRec` (requests.go): one fillable hold. -/
structure sirsiHoldRec where
  key : String
  patron : sirsiHoldPatron
  recallStatus : String
  status : String
  pickupLibraryKey : String
  placedLibraryKey : String
  deriving DecidableEq, Repr

/-- `sirsiTransitRec` (requests.go).  `HoldRecord` is a `*sirsiKey`; `none`
models the nil pointer, `some k` a record with key `k`. -/
structure sirsiTransitRec where
  destinationLibraryKey : String
  holdRecordKey : Option String
  deriving DecidableEq, Repr

/-- `sirsiBarcodeScanItem` (requests.go): the parsed item-by-barcode response. -/
structure sirsiBarcodeScanItem where
  title : String
  author : String
  fillableHolds : List sirsiHoldRec
  transit : Option sirsiTransitRec
  deriving DecidableEq, Repr

/-- `fillHoldInfo` (requests.go): one untransit/checkout candidate. -/
structure fillHoldInfo where
  key : String
  barcode : String
  userName : String
  userID : String
  userBarcode : String
  pickupLibraryID : String
  untransit : Bool
  deriving DecidableEq, Repr

/-- Candidate data collected from a hold record (requests.go; in the transit
branch the key is taken from the transit's hold-record key, which the
surrounding match has made equal to `h.key`). -/
def mkFillHoldInfo (barcode : String) (h : sirsiHoldRec) (unt : Bool) : fillHoldInfo :=
  ⟨h.key, barcode, h.patron.displayName, h.patron.alternateID, h.patron.barcode,
    h.pickupLibraryKey, unt⟩

/-- The guard of `fillHold`: no fillable holds, and either no transit record or
a transit record whose hold-record pointer is nil. -/
def fillHoldNoHoldGuard (item : sirsiBarcodeScanItem) : Bool :=
  item.fillableHolds.length == 0 &&
    (match item.transit with
     | none => true
     | some t => t.holdRecordKey == none)

/-- The find-then-delete of `fillHold`: locate the first fillable hold whose
key equals the transit's hold-record key, returning it together with the list
with that one occurrence removed (`slices.Delete` at the found index). -/
def findTransitHold (holdKey : String) : List sirsiHoldRec →
    Option (sirsiHoldRec × List sirsiHoldRec)
  | [] => none
  | h :: rest =>
    if h.key = holdKey then some (h, rest)
    else (findTransitHold holdKey rest).map (fun pr => (pr.1, h :: pr.2))

/-- Ways `fillHold` returns before trying any candidate. -/
inductive fillHoldStop where
  | noHold : fillHoldStop
  | nilHoldRecord : fillHoldStop
  | transitHoldMissing : fillHoldStop
  deriving DecidableEq, Repr

/-- Candidate-list construction of `fillHold`: the no-hold guard, then — when a
transit record is present — dereference its hold-record pointer (`panic` when
nil), put the matching fillable hold first marked `untransit`, remove it from
the remainder, and append every remaining fillable hold unmarked, in order. -/
def fillHoldCandidates (barcode : String) (item : sirsiBarcodeScanItem) :
    Except fillHoldStop (List fillHoldInfo) :=
  if fillHoldNoHoldGuard item then
    .error .noHold
  else
    match item.transit with
    | none => .ok (item.fillableHolds.map (fun h => mkFillHoldInfo barcode h false))
    | some t =>
      match t.holdRecordKey with
      | none => .error .nilHoldRecord
      | some holdKey =>
        match findTransitHold holdKey item.fillableHolds with
        | none => .error .transitHoldMissing
        | some (transitHold, remaining) =>
          .ok (mkFillHoldInfo barcode transitHold true ::
            remaining.map (fun h => mkFillHoldInfo barcode h false))

/-- `barcodeScanResp` (requests.go): the printable slip data. -/
structure barcodeScanResp where
  title : String
  author : String
  barcode : String
  userName : String
  userID : String
  pickupLibraryID : String
  errorMessages : List sirsiMessage
  deriving DecidableEq, Repr

/-- Result of the candidate loop.  `untransitCalls`/`checkoutCalls` record, in
order, the candidates for which the respective upstream call was issued;
`midWrite` is the response the handler writes from inside the loop when an
untransit returns a status other than `ON_SHELF` (the loop keeps running, but
the framework delivers the first write); `lastTried` is the last candidate
whose data was copied into the response envelope. -/
structure fillHoldRun where
  untransitCalls : List fillHoldInfo
  checkoutCalls : List fillHoldInfo
  errors : List sirsiMessage
  success : Bool
  midWrite : Option barcodeScanResp
  lastTried : Option fillHoldInfo
  deriving DecidableEq, Repr

/-- The checkout half of one loop iteration (requests.go): on failure parse the
body into messages (Go ignores the unmarshal error, so an unparseable body
contributes no messages), record them and continue with the rest; on success
stop. -/
def fillHoldCheckoutStep (checkoutOracle : fillHoldInfo → Option requestError)
    (parseMessageList : String → List sirsiMessage)
    (tgt : fillHoldInfo) (restRun : fillHoldRun) : fillHoldRun :=
  match checkoutOracle tgt with
  | some coErr =>
    ⟨restRun.untransitCalls, tgt :: restRun.checkoutCalls,
      parseMessageList coErr.message ++ restRun.errors, restRun.success,
      restRun.midWrite,
      match restRun.lastTried with
      | some x => some x
      | none => some tgt⟩
  | none => ⟨[], [tgt], [], true, none, some tgt⟩

/-- The candidate loop of `fillHold` (requests.go).  `out0` is the response
envelope as populated before the loop. -/
def fillHoldLoop (untransitOracle : fillHoldInfo → Except requestError String)
    (checkoutOracle : fillHoldInfo → Option requestError)
    (parseMessageList : String → List sirsiMessage)
    (out0 : barcodeScanResp) : List fillHoldInfo → fillHoldRun
  | [] => ⟨[], [], [], false, none, none⟩
  | tgt :: rest =>
    if tgt.untransit then
      match untransitOracle tgt with
      | .error e =>
        let r := fillHoldLoop untransitOracle checkoutOracle parseMessageList out0 rest
        ⟨tgt :: r.untransitCalls, r.checkoutCalls,
          ⟨toString e.statusCode, e.message⟩ :: r.errors, r.success, r.midWrite,
          match r.lastTried with
          | some x => some x
          | none => some tgt⟩
      | .ok status =>
        if status ≠ "ON_SHELF" then
          let r := fillHoldLoop untransitOracle checkoutOracle parseMessageList out0 rest
          ⟨tgt :: r.untransitCalls, r.checkoutCalls,
            ⟨"", status⟩ :: r.errors, r.success,
            some { out0 with
              userName := tgt.userName
              userID := tgt.userID
              pickupLibraryID := tgt.pickupLibraryID },
            match r.lastTried with
            | some x => some x
            | none => some tgt⟩
        else
          let r := fillHoldLoop untransitOracle checkoutOracle parseMessageList out0 rest
          let step := fillHoldCheckoutStep checkoutOracle parseMessageList tgt r
          ⟨tgt :: step.untransitCalls, step.checkoutCalls, step.errors, step.success,
            step.midWrite, step.lastTried⟩
    else
      let r := fillHoldLoop untransitOracle checkoutOracle parseMessageList out0 rest
      fillHoldCheckoutStep checkoutOracle parseMessageList tgt r

/-- How the handler concludes. -/
inductive fillHoldResponse where
  | okJSON (resp : barcodeScanResp) : fillHoldResponse
  | serverError (msg : String) : fillHoldResponse
  | panicked : fillHoldResponse
  deriving DecidableEq, Repr

/-- Observable behaviour of one `fillHold` invocation after the item fetch and
parse: the upstream circulation calls issued, and the response delivered. -/
structure fillHoldResult where
  untransitCalls : List fillHoldInfo
  checkoutCalls : List fillHoldInfo
  response : fillHoldResponse
  deriving DecidableEq, Repr

/-- `fillHold` (requests.go) from the parsed item on: build the candidate
list, run the untransit/checkout loop, and respond.  The delivered response is
the handler's first write: the mid-loop write on a bad untransit status when
one occurred, else the final envelope (with the accumulated error messages
attached when no candidate succeeded). -/
def fillHold (barcode : String) (item : sirsiBarcodeScanItem)
    (untransitOracle : fillHoldInfo → Except requestError String)
    (checkoutOracle : fillHoldInfo → Option requestError)
    (parseMessageList : String → List sirsiMessage) : fillHoldResult :=
  let base : barcodeScanResp := ⟨item.title, item.author, barcode, "", "", "", []⟩
  match fillHoldCandidates barcode item with
  | .error .noHold =>
    ⟨[], [], .okJSON { base with errorMessages := [⟨"", "No hold for this item."⟩] }⟩
  | .error .nilHoldRecord => ⟨[], [], .panicked⟩
  | .error .transitHoldMissing =>
    ⟨[], [], .serverError "unable to find hold data in transit item"⟩
  | .ok candidates =>
    let run := fillHoldLoop untransitOracle checkoutOracle parseMessageList base candidates
    let out :=
      match run.lastTried with
      | some tgt => { base with
          userName := tgt.userName
          userID := tgt.userID
          pickupLibraryID := tgt.pickupLibraryID }
      | none => base
    let out := if run.success = false then { out with errorMessages := run.errors } else out
    match run.midWrite with
    | some w => ⟨run.untransitCalls, run.checkoutCalls, .okJSON w⟩
    | none => ⟨run.untransitCalls, run.checkoutCalls, .okJSON out⟩

/-- Witness data: a fillable hold with key `H1`. -/
def c2HoldA : sirsiHoldRec :=
  ⟨"H1", ⟨"Alice Archer", "aa1aa", "111111"⟩, "STANDARD", "PLACED", "CLEMONS", "LEO"⟩

/-- Witness data: a fillable hold with key `H2`. -/
def c2HoldB : sirsiHoldRec :=
  ⟨"H2", ⟨"Ben Byrd", "bb2bb", "222222"⟩, "STANDARD", "PLACED", "ALDERMAN", "LEO"⟩

/-- Witness data: a scanned item in transit for hold `H2`, with two fillable holds. -/
def c2Item : sirsiBarcodeScanItem :=
  ⟨"A Title", "Doe, J.", [c2HoldA, c2HoldB], some ⟨"CLEMONS", some "H2"⟩⟩

/-- Witness data: a scanned item whose transit references hold `H9`, which is
not in the fillable-hold list. -/
def c10Item : sirsiBarcodeScanItem :=
  ⟨"A Title", "Doe, J.", [c2HoldA], some ⟨"CLEMONS", some "H9"⟩⟩

/-! ## 4.C Reference-data cache (locations.go, libraries.go) -/

/-- `locationRec` (locations.go). -/
structure locationRec where
  id : Int
  key : String
  description : String
  online : Bool
  shadowed : Bool
  onShelf : Bool
  circulating : Bool
  deriving DecidableEq, Repr

/-- `libraryRec` (libraries.go). -/
structure libraryRec where
  id : Int
  key : String
  description : String
  onShelf : Bool
  circulating : Bool
  deriving DecidableEq, Repr

/-- The lookup tables of `locationContext` (locations.go). -/
structure locationContext where
  records : List locationRec
  reserveLocations : List String
  nonCirculating : List String
  onShelf : List String
  deriving DecidableEq, Repr

/-- `locationContext.find` (locations.go): first record whose key equals the
argument exactly; `none` models the nil pointer returned when none matches. -/
def locationContext.find (lc : locationContext) (key : String) : Option locationRec :=
  lc.records.find? (fun loc => loc.key = key)

/-- `libraryContext.find` (libraries.go): first record whose key equals the
upper-cased, trimmed argument; `none` models the nil pointer. -/
def libraryFind (records : List libraryRec) (key : String) : Option libraryRec :=
  records.find? (fun lib => lib.key = goTrim (goUpper key))

/-- `locationContext.isCourseReserve` (locations.go). -/
def locationContext.isCourseReserve (lc : locationContext) (key : String) : Bool :=
  lc.reserveLocations.any (fun loc => loc = goTrim (goUpper key))

/-- `locationContext.isOnline` (locations.go): `INTERNET` or `NOTOREPDA`. -/
def isOnlineLocation (key : String) : Bool :=
  ["INTERNET", "NOTOREPDA"].any (fun loc => loc = goTrim (goUpper key))

/-- `locationContext.isIvyStacks` (locations.go). -/
def isIvyStacks (key : String) : Bool :=
  goTrim (goUpper key) = "SC-IVY"

/-- `locationContext.isMediumRare` (locations.go). -/
def isMediumRare (key : String) : Bool :=
  goTrim (goUpper key) = "LOCKEDSTKS"

/-- `locationContext.mediumRareMessage` (locations.go). -/
def mediumRareMessage : String :=
  "This item does not circulate outside of library spaces. When you request this item from Ivy, it will be delivered to the Small Special Collections Library for you to use in the reading room only."

/-- `locationContext.isUnavailable` (locations.go). -/
def isUnavailable (key : String) : Bool :=
  ["LOST", "UNKNOWN", "MISSING", "DISCARD", "WITHDRAWN", "BARRED", "BURSARED",
    "ORD-CANCLD", "HEREDOC"].any (fun loc => loc = goTrim (goUpper key))

/-! ## 4.E Availability aggregation (availability.go) -/

/-- One entry of a call record's `itemList` in the parsed bib response
(availability.go `sirsiBibResponse`). -/
structure sirsiItemRec where
  key : String
  barcode : String
  copyNumber : Int
  currentLocationKey : String
  currentLocationDescription : String
  currentLocationShadowed : Bool
  homeLocationKey : String
  itemTypeKey : String
  shadowed : Bool
  deriving DecidableEq, Repr

/-- One entry of `callList` in the parsed bib response (availability.go). -/
structure sirsiCallRec where
  key : String
  volumetric : String
  dispCallNumber : String
  libraryKey : String
  libraryDescription : String
  shadowed : Bool
  itemList : List sirsiItemRec
  deriving DecidableEq, Repr

/-- The parsed bib response, projected to the fields `processAvailabilityItems`
reads (the MARC record and bound-with list play no part in the claims). -/
structure sirsiBibResponse where
  key : String
  callList : List sirsiCallRec
  deriving DecidableEq, Repr

/-- `availItem` (availability.go).  `scLocation` is the
`special_collections_location` field, populated only from the catalog-index
document, never from a sirsi bib. -/
structure availItem where
  barcode : String
  onShelf : Bool
  unavailable : Bool
  notice : String
  library : String
  libraryID : String
  currentLocation : String
  currentLocationID : String
  homeLocationID : String
  callNumber : String
  isVideo : Bool
  volume : String
  scLocation : String
  deriving DecidableEq, Repr

/-- One record of the course-reserves script response (availability.go
`getItemNotice`). -/
structure courseReserveInfo where
  barcode : String
  courseID : String
  courseName : String
  instructor : String
  deriving DecidableEq, Repr

/-- `isVideo` (availability.go). -/
def isVideo (itemTypeID : String) : Bool :=
  ["VIDEOJRNL", "VIDEO-DVD", "VIDEO-DISC", "VIDEO-CASS", "RSRV-VID4",
    "RSRV-VID24"].any (fun val => val = itemTypeID)

/-- The Ivy Stacks retrieval notice (availability.go `getItemNotice`). -/
def ivyStacksNotice : String :=
  "Part or all of this collection is housed in <a href=\"https://library.virginia.edu/locations/ivy\" target=\"_blank\">Ivy Stacks</a> and requires 72 hours notice to retrieve."

/-- `getItemNotice` (availability.go).  `crOracle` models the course-reserves
script call and its JSON parse: `none` when the request or the parse fails
(both return an empty notice), `some rows` for a parsed response.  Note the
source returns the assembled course notice only when an instructor is present;
every other course-reserve path falls through to the empty string. -/
def getItemNotice (lc : locationContext)
    (crOracle : String → Option (List courseReserveInfo)) (item : availItem) : String :=
  if isIvyStacks item.homeLocationID then ivyStacksNotice
  else if isMediumRare item.homeLocationID then mediumRareMessage
  else if lc.isCourseReserve item.currentLocationID then
    match crOracle item.barcode with
    | none => ""
    | some crResponse =>
      match crResponse with
      | [] => ""
      | cr :: _ =>
        if cr.courseID ≠ "" then
          if cr.instructor ≠ "" then
            "This item is on course reserves so is available for limited use through the circulation desk." ++
              "\nCourse Name: " ++ cr.courseName ++ "\nCourse ID: " ++ cr.courseID ++
              "\nInstructor: " ++ cr.instructor
          else ""
        else ""
  else ""

/-- `serviceContext.isOnShelf` (availability.go): both lookups must succeed and
both records must be flagged on-shelf. -/
def svcIsOnShelf (libs : List libraryRec) (lc : locationContext) (item : availItem) : Bool :=
  match libraryFind libs item.libraryID, lc.find item.currentLocationID with
  | some lib, some loc => lib.onShelf && loc.onShelf
  | _, _ => false

/-- `serviceContext.isNonCirculating` (availability.go).  The source evaluates
`lib != nil && loc != nil && lib.Circulating == false || loc.Circulating == false`:
when the left disjunct is false it dereferences the location pointer, which
panics (`.error`) when the location lookup found nothing. -/
def svcIsNonCirculating (libs : List libraryRec) (lc : locationContext)
    (item : availItem) : Except Unit Bool :=
  let lib := libraryFind libs item.libraryID
  let loc := lc.find item.currentLocationID
  let leftDisjunct : Bool :=
    match lib, loc with
    | some l, some _ => l.circulating == false
    | _, _ => false
  if leftDisjunct then
    .ok true
  else
    match loc with
    | none => .error ()
    | some c => .ok (c.circulating == false)

/-- The `availItem` built by one iteration of `processAvailabilityItems`
(availability.go): display call number with the copy suffix appended when any
item of the call record has copy number above 1, the call record's library,
the item's locations, then the notice, video flag, on-shelf flag and
unavailable flag computed as in the source. -/
def mkAvailItem (libs : List libraryRec) (lc : locationContext)
    (crOracle : String → Option (List courseReserveInfo))
    (callRec : sirsiCallRec) (itemRec : sirsiItemRec) : availItem :=
  let callNumber :=
    if callRec.itemList.any (fun test => 1 < test.copyNumber) then
      callRec.dispCallNumber ++ " (copy " ++ toString itemRec.copyNumber ++ ")"
    else callRec.dispCallNumber
  let item0 : availItem :=
    { barcode := itemRec.barcode
      onShelf := false
      unavailable := false
      notice := ""
      library := callRec.libraryDescription
      libraryID := callRec.libraryKey
      currentLocation := itemRec.currentLocationDescription
      currentLocationID := itemRec.currentLocationKey
      homeLocationID := itemRec.homeLocationKey
      callNumber := callNumber
      isVideo := false
      volume := callRec.volumetric
      scLocation := "" }
  { item0 with
    notice := getItemNotice lc crOracle item0
    isVideo := isVideo itemRec.itemTypeKey
    onShelf := svcIsOnShelf libs lc item0
    unavailable := isUnavailable item0.currentLocationID }

/-- The inner loop of `processAvailabilityItems` (availability.go): skip
shadowed items, look the current location up in the policy table — the nil
result of a failed lookup is dereferenced, `.error` — and skip shadowed or
online locations; every surviving item is emitted in order. -/
def processItemList (libs : List libraryRec) (lc : locationContext)
    (crOracle : String → Option (List courseReserveInfo)) (callRec : sirsiCallRec) :
    List sirsiItemRec → Except Unit (List availItem)
  | [] => .ok []
  | ir :: rest =>
    if ir.shadowed then processItemList libs lc crOracle callRec rest
    else
      match lc.find ir.currentLocationKey with
      | none => .error ()
      | some currLoc =>
        if currLoc.shadowed || currLoc.online then
          processItemList libs lc crOracle callRec rest
        else
          match processItemList libs lc crOracle callRec rest with
          | .error e => .error e
          | .ok out => .ok (mkAvailItem libs lc crOracle callRec ir :: out)

/-- The outer loop of `processAvailabilityItems` (availability.go): skip
shadowed call records. -/
def processCallList (libs : List libraryRec) (lc : locationContext)
    (crOracle : String → Option (List courseReserveInfo)) :
    List sirsiCallRec → Except Unit (List availItem)
  | [] => .ok []
  | cr :: rest =>
    if cr.shadowed then processCallList libs lc crOracle rest
    else
      match processItemList libs lc crOracle cr cr.itemList with
      | .error e => .error e
      | .ok items =>
        match processCallList libs lc crOracle rest with
        | .error e => .error e
        | .ok more => .ok (items ++ more)

/-- `processAvailabilityItems` (availability.go). -/
def processAvailabilityItems (libs : List libraryRec) (lc : locationContext)
    (crOracle : String → Option (List courseReserveInfo))
    (bibResp : sirsiBibResponse) : Except Unit (List availItem) :=
  processCallList libs lc crOracle bibResp.callList

/-- Witness data: a one-call, one-item bib whose item sits in the `STACKS`
location. -/
def c4Bib : sirsiBibResponse :=
  ⟨"4461987", [⟨"c41", "", "QA1 .B2", "UVA-LIB", "Alderman Library", false,
    [⟨"i41", "X010", 1, "STACKS", "Stacks", false, "STACKS", "BOOK", false⟩]⟩]⟩

/-- Witness data: a policy table knowing only the `STACKS` location. -/
def c4Lc : locationContext :=
  ⟨[⟨10, "STACKS", "Stacks", false, false, false, true⟩], [], [], []⟩

/-- The availability item the witness bib produces. -/
def c4Item : availItem :=
  ⟨"X010", false, false, "", "Alderman Library", "UVA-LIB", "Stacks", "STACKS",
    "STACKS", "QA1 .B2", false, "", ""⟩

/-- Failing input for the implicit nil-handling claim: the same bib shape with
a current-location key absent from an empty policy table. -/
def c9Bib : sirsiBibResponse :=
  ⟨"4461988", [⟨"c91", "", "QA1 .B2", "UVA-LIB", "Alderman Library", false,
    [⟨"i91", "X011", 1, "UNKNOWN-LOC", "", false, "STACKS", "BOOK", false⟩]⟩]⟩

/-- An empty policy table, the state a failed refresh leaves behind. -/
def c9Lc : locationContext := ⟨[], [], [], []⟩

/-! ## 4.G Hold / scan placement (requests.go) -/

/-- The caller-token claims the handlers read (external `v4jwt.V4Claims`). -/
structure v4Claims where
  userID : String
  barcode : String
  profile : String
  homeLibrary : String
  canPlaceReserve : Bool
  deriving DecidableEq, Repr

/-- `holdRequest` (requests.go). -/
structure holdRequest where
  pickupLibrary : String
  itemBarcode : String
  illiadTN : String
  deriving DecidableEq, Repr

/-- `holdErrorsData` (requests.go): the uniform errors block. -/
structure holdErrorsData where
  sirsi : List String
  itemBarcode : List String
  deriving DecidableEq, Repr

/-- `holdResponseData` (requests.go): the hold envelope. -/
structure holdResponseData where
  pickupLibrary : String
  itemBarcode : String
  userID : String
  errors : Option holdErrorsData
  deriving DecidableEq, Repr

/-- One message-classification step of `getHoldErrorMessages` (requests.go):
code `keyParseError` contributes `Invalid title key` to the item-barcode list,
any other code contributes its message text to the sirsi list. -/
def holdErrorsStep (errs : holdErrorsData) (m : sirsiMessage) : holdErrorsData :=
  if m.code = "keyParseError" then
    { errs with itemBarcode := errs.itemBarcode ++ ["Invalid title key"] }
  else
    { errs with sirsi := errs.sirsi ++ [m.message] }

/-- `getHoldErrorMessages` (requests.go).  `parseMessageList` models the
`json.Unmarshal` into `sirsiMessageList`: `.error` carries the parser's error
text (which then lands in the sirsi list), `.ok` the parsed messages. -/
def getHoldErrorMessages (parseMessageList : String → Except String (List sirsiMessage))
    (rawErrors : String) : holdErrorsData :=
  match parseMessageList rawErrors with
  | .error parseErrText => ⟨[parseErrText], []⟩
  | .ok msgs => msgs.foldl holdErrorsStep ⟨[], []⟩

/-- The tail of `createHold` (requests.go), once the request body and claims
have been read: status code and envelope of the handler's single JSON write,
given the outcome of `placeHold` (`none` = upstream accepted). -/
def createHold (claims : v4Claims) (holdReq : holdRequest)
    (placeResult : Option requestError)
    (parseMessageList : String → Except String (List sirsiMessage)) :
    Nat × holdResponseData :=
  let out : holdResponseData :=
    ⟨holdReq.pickupLibrary, holdReq.itemBarcode, claims.userID, none⟩
  match placeResult with
  | none => (200, out)
  | some holdErr =>
    (200, { out with errors := some (getHoldErrorMessages parseMessageList holdErr.message) })

/-- Observable outcome of `deleteHold`: response status and body, and whether
the upstream delete was issued. -/
structure deleteHoldOutcome where
  status : Nat
  body : String
  deleteIssued : Bool
  deriving DecidableEq, Repr

/-- `deleteHold` (requests.go), parameterized by the hold fetch (`fetchResult`:
raw body, or the `requestError` of a failed GET), its JSON parse, and the
upstream delete (`deleteResult`: `none` when the delete returned 200/201; any
other status — including 204 — arrives as a `requestError`, per `sendRequest`). -/
def deleteHold (holdID userID : String)
    (fetchResult : Except requestError String)
    (parseHold : String → Except String sirsiHoldRec)
    (deleteResult : Option requestError) : deleteHoldOutcome :=
  match fetchResult with
  | .error sirsiErr =>
    if sirsiErr.statusCode = 404 then ⟨404, holdID ++ " not found", false⟩
    else ⟨sirsiErr.statusCode, sirsiErr.message, false⟩
  | .ok raw =>
    match parseHold raw with
    | .error parseErrText => ⟨500, parseErrText, false⟩
    | .ok hold =>
      let holdOwner := hold.patron.alternateID
      if goUpper holdOwner ≠ goUpper userID then
        ⟨400, "you do not hold this item", false⟩
      else if ¬(hold.status = "PLACED" ∧ hold.recallStatus ≠ "RUSH") then
        ⟨400, "hold cannot be cancelled", false⟩
      else
        match deleteResult with
        | some sirsiErr =>
          if sirsiErr.statusCode = 204 then ⟨200, "deleted", true⟩
          else ⟨sirsiErr.statusCode, sirsiErr.message, true⟩
        | none => ⟨200, "deleted", true⟩

/-- Witness data: an upstream rejection with one `keyParseError` message and
one other message. -/
def c6Messages : List sirsiMessage :=
  [⟨"keyParseError", "kc is not a valid key"⟩,
   ⟨"hatErrorResponse.252", "User already has a hold on this material"⟩]

/-- Witness data: a hold owned by patron `mst3k`, placed and not rush-recalled. -/
def c7Hold : sirsiHoldRec :=
  ⟨"H7", ⟨"Mike Nelson", "mst3k", "333333"⟩, "STANDARD", "PLACED", "CLEMONS", "LEO"⟩

/-! ## 4.F Request-options derivation (options.go) -/

/-- `holdableItem` (options.go). -/
structure holdableItem where
  barcode : String
  callNumber : String
  library : String
  location : String
  notice : String
  scNotes : String
  deriving DecidableEq, Repr

/-- `requestOption` (options.go). -/
structure requestOption where
  signInRequired : Bool
  streamingReserve : Bool
  itemBarcodes : List String
  createURL : String
  deriving DecidableEq, Repr

/-- `requestOptions` (options.go).  The Go `map[string]*requestOption` is an
association list here: the handlers only ever read, replace, delete or update
single keys, never iterate the map, so key-indexed access captures it. -/
structure requestOptionsT where
  items : List holdableItem
  options : List (String × requestOption)
  deriving DecidableEq, Repr

/-- Map write `Options[k] = v` (insert or replace). -/
def optInsert (m : List (String × requestOption)) (k : String) (v : requestOption) :
    List (String × requestOption) :=
  if m.any (fun p => p.1 = k) then
    m.map (fun p => if p.1 = k then (k, v) else p)
  else m ++ [(k, v)]

/-- Map read `Options[k]`. -/
def optLookup (m : List (String × requestOption)) (k : String) : Option requestOption :=
  (m.find? (fun p => p.1 = k)).map Prod.snd

/-- Map delete `delete(Options, k)`. -/
def optDelete (m : List (String × requestOption)) (k : String) :
    List (String × requestOption) :=
  m.filter (fun p => p.1 ≠ k)

/-- `Options[k].ItemBarcodes = append(Options[k].ItemBarcodes, b)`.  In the
source this dereferences the map entry, which is present at every call site
(the pipeline creates `hold`, `videoReserve`, `scan` and `aeon` up front and
only ever deletes `scan` after disabling the code path that appends to it). -/
def optAppendBarcode (m : List (String × requestOption)) (k : String) (b : String) :
    List (String × requestOption) :=
  m.map (fun p =>
    if p.1 = k then (p.1, { p.2 with itemBarcodes := p.2.itemBarcodes ++ [b] }) else p)

/-- `createRequestOptions` (options.go). -/
def createRequestOptions : requestOptionsT :=
  { items := []
    options :=
      [("hold", ⟨true, false, [], ""⟩),
       ("videoReserve", ⟨true, false, [], ""⟩),
       ("scan", ⟨true, false, [], ""⟩),
       ("aeon", ⟨false, false, [], ""⟩)] }

/-- `strings.EqualFold` (ASCII-faithful, like `goUpper`). -/
def eqFold (a b : String) : Bool :=
  goLower a = goLower b

/-- The characters before the first occurrence of the pattern. -/
def takeUntilSub (pat : List Char) : List Char → List Char
  | [] => []
  | c :: rest => if pat.isPrefixOf (c :: rest) then [] else c :: takeUntilSub pat rest

/-- `strings.Split(cn, " (copy")[0]`: the prefix before the first copy suffix. -/
def stripCopySuffix (cn : String) : String :=
  ⟨takeUntilSub " (copy".data cn.data⟩

/-- Modelled from the spec: the revision of `availItem.toHoldableItem` taking
an sc-notes argument, which options.go calls, is missing from the source files
(only zero-argument revisions are present).  Per spec §3, the holdable
projection keeps the barcode and strips the copy suffix from the call-number
label unless the item belongs to the special-collections library; the given
notes become `scNotes`. -/
def toHoldableItem (ai : availItem) (scNotes : String) : holdableItem :=
  { barcode := ai.barcode
    callNumber :=
      if ai.libraryID ≠ "SPEC-COLL" then stripCopySuffix ai.callNumber else ai.callNumber
    library := ai.library
    location := ai.currentLocation
    notice := ai.notice
    scNotes := scNotes }

/-- `holdableExists` (options.go): a candidate collides when some existing
holdable's call-number label matches case-insensitively, or when the candidate
has no volume and the holdable list is non-empty. -/
def holdableExists (tgtItem : holdableItem) (volume : String)
    (holdableItems : List holdableItem) : Bool :=
  let exist := holdableItems.any (fun hi => eqFold hi.callNumber tgtItem.callNumber)
  if exist = false then
    volume == "" && !holdableItems.isEmpty
  else exist

/-- The catalog-index document, projected to the fields the embedded
options functions read. -/
structure solrDocument where
  library : List String
  localNotes : List String
  deriving DecidableEq, Repr

/-- Loop state of `addSirsiRequestOptions` (options.go). -/
structure sirsiOptionsState where
  noScans : Bool
  atoItem : Option availItem
  ro : requestOptionsT
  deriving DecidableEq, Repr

/-- Available-to-order tracking at the top of the loop (options.go). -/
def trackATO (item : availItem) (st : sirsiOptionsState) : sirsiOptionsState :=
  if item.currentLocation = "Available to Order" ∧ st.atoItem = none then
    { st with atoItem := some item }
  else st

/-- The scan path of one loop iteration (options.go): only for non-video,
scan-enabled, non-special-collections items; a home location in the closed
rare set disables scans for the whole request and drops the `scan` option; an
undergraduate profile is blocked except for `BY-REQUEST`; otherwise, a
candidate passing the dedup check is added to the items list and to the scan
barcodes. Returns `itemJustAdded` and the updated state. -/
def scanPath (claims : v4Claims) (st : sirsiOptionsState) (item : availItem)
    (hi : holdableItem) : Bool × sirsiOptionsState :=
  if item.isVideo = false ∧ st.noScans = false ∧ item.libraryID ≠ "SPEC-COLL" then
    if ["HISTCOL", "RARESHL", "RAREOVS", "RAREVLT"].contains item.homeLocationID then
      (false, { st with
        noScans := true
        ro := { st.ro with options := optDelete st.ro.options "scan" } })
    else if goUpper claims.profile = "UNDERGRAD" ∧ item.homeLocationID ≠ "BY-REQUEST" then
      (false, st)
    else if holdableExists hi item.volume st.ro.items = false then
      (true, { st with
        ro := ⟨st.ro.items ++ [hi], optAppendBarcode st.ro.options "scan" hi.barcode⟩ })
    else (false, st)
  else (false, st)

/-- The hold/video path of one loop iteration (options.go): when the candidate
passes the dedup check or was just added by the scan path, add it to the items
list (unless the scan path already did), append its barcode to the hold
barcodes, and to the video-reserve barcodes when the item is video. -/
def holdPath (st : sirsiOptionsState) (item : availItem) (hi : holdableItem)
    (itemJustAdded : Bool) : sirsiOptionsState :=
  if holdableExists hi item.volume st.ro.items = false ∨ itemJustAdded = true then
    let st1 :=
      if itemJustAdded = false then
        { st with ro := { st.ro with items := st.ro.items ++ [hi] } }
      else st
    let st2 := { st1 with
      ro := { st1.ro with options := optAppendBarcode st1.ro.options "hold" hi.barcode } }
    if item.isVideo then
      { st2 with
        ro := { st2.ro with
          options := optAppendBarcode st2.ro.options "videoReserve" hi.barcode } }
    else st2
  else st

/-- One iteration of the `addSirsiRequestOptions` loop (options.go): track the
PDA candidate, skip unavailable items, build the holdable projection with the
medium-rare label suffix, run the scan path, then — unless the item is
non-circulating, a check that dereferences the location lookup — the hold path. -/
def addSirsiItemStep (libs : List libraryRec) (lc : locationContext) (claims : v4Claims)
    (st : sirsiOptionsState) (item : availItem) : Except Unit sirsiOptionsState :=
  let st := trackATO item st
  if item.unavailable then .ok st
  else
    let hi0 := toHoldableItem item ""
    let hi :=
      if isMediumRare item.homeLocationID then
        { hi0 with callNumber := hi0.callNumber ++ " (Ivy limited circulation)" }
      else hi0
    let scanRes := scanPath claims st item hi
    match svcIsNonCirculating libs lc item with
    | .error e => .error e
    | .ok nonCirc =>
      if nonCirc then .ok scanRes.2
      else .ok (holdPath scanRes.2 item hi scanRes.1)

/-- The initial scan-eligibility flag (options.go `noScans`): disabled for the
listed profiles or a health-sciences home library. -/
def initialScanFlag (claims : v4Claims) : Bool :=
  ["VABORROWER", "OTHERVAFAC", "ALUMNI", "RESEARCHER"].contains (goUpper claims.profile) ||
    claims.homeLibrary == "HEALTHSCI"

/-- `addSirsiRequestOptions` (options.go): compute the initial scan eligibility
from the caller's profile and home library, fold the item loop, then resolve
the PDA candidate.  `pdaOracle` is the result of the PDA check (`none` =
HTTP success = already ordered); `pdaCreateURL` stands for
`generatePDACreateURL` applied to the candidate's barcode (title id and MARC
record fixed for the request; the URL text is outside every claim). -/
def addSirsiRequestOptions (libs : List libraryRec) (lc : locationContext)
    (claims : v4Claims) (pdaOracle : Option requestError)
    (pdaCreateURL : String → String) (items : List availItem)
    (ro0 : requestOptionsT) : Except Unit requestOptionsT := do
  let st ← items.foldlM (addSirsiItemStep libs lc claims) ⟨initialScanFlag claims, none, ro0⟩
  match st.atoItem with
  | none => .ok st.ro
  | some ato =>
    match pdaOracle with
    | some e =>
      if e.statusCode = 404 then
        .ok { st.ro with
          options := optInsert st.ro.options "pda" ⟨true, false, [], pdaCreateURL ato.barcode⟩ }
      else .ok st.ro
    | none =>
      .ok { st.ro with options := optInsert st.ro.options "pda" ⟨true, false, [], ""⟩ }

/-- One aeon item append (options.go `addAeonRequestOptions` loop body):
special-collections items are added to the items list with their sc notes, and
their barcode to the aeon barcodes.  `cleanLocalNote` stands for the two
regular-expression rewrites of a local note (external regexp package). -/
def addAeonItemStep (cleanLocalNote : String → String) (doc : solrDocument)
    (ro : requestOptionsT) (item : availItem) : requestOptionsT :=
  if item.libraryID ≠ "SPEC-COLL" then ro
  else
    let notes :=
      if 0 < item.scLocation.length then item.scLocation
      else if 0 < doc.localNotes.length then
        String.join (doc.localNotes.map (fun note => goTrim (cleanLocalNote note) ++ ";\n"))
      else "(no location notes)"
    let notes := if 700 < notes.length then ⟨notes.data.take 700⟩ else notes
    { ro with
      items := ro.items ++ [toHoldableItem item notes]
      options := optAppendBarcode ro.options "aeon" item.barcode }

/-- `addAeonRequestOptions` (options.go): nothing unless the index document
lists `Special Collections`; otherwise replace the aeon option (empty
barcodes, launch URL `aeonURL` built by the external query-string package) and
append every special-collections item. -/
def addAeonRequestOptions (cleanLocalNote : String → String) (aeonURL : String)
    (doc : solrDocument) (availItems : List availItem)
    (ro : requestOptionsT) : requestOptionsT :=
  if (doc.library.contains "Special Collections") = false then ro
  else
    let ro := { ro with options := optInsert ro.options "aeon" ⟨false, false, [], aeonURL⟩ }
    availItems.foldl (addAeonItemStep cleanLocalNote doc) ro

/-- The request-options derivation pipeline of the claims:
`addSirsiRequestOptions` on a fresh options object, then
`addAeonRequestOptions`. -/
def deriveRequestOptions (libs : List libraryRec) (lc : locationContext)
    (claims : v4Claims) (pdaOracle : Option requestError)
    (pdaCreateURL : String → String) (cleanLocalNote : String → String)
    (aeonURL : String) (doc : solrDocument) (items : List availItem) :
    Except Unit requestOptionsT := do
  let ro ← addSirsiRequestOptions libs lc claims pdaOracle pdaCreateURL items
    createRequestOptions
  .ok (addAeonRequestOptions cleanLocalNote aeonURL doc items ro)

/-- Every barcode in every option resolves to at least one items entry. -/
def barcodesCovered (ro : requestOptionsT) : Prop :=
  ∀ pr ∈ ro.options, ∀ b ∈ pr.2.itemBarcodes, ∃ e ∈ ro.items, e.barcode = b

/-- Counterexample data: an alumni caller (scans disabled). -/
def c5Claims : v4Claims := ⟨"mst3k", "666666666", "ALUMNI", "CLEMONS", false⟩

/-- Counterexample data: a policy table where location `LOC1` circulates. -/
def c5Lc : locationContext := ⟨[⟨1, "LOC1", "Loc One", false, false, false, true⟩], [], [], []⟩

/-- Counterexample data: two availability items sharing barcode `B1` with
distinct call numbers and volumes. -/
def c5Item1 : availItem :=
  ⟨"B1", false, false, "", "Lib One", "L1", "Loc One", "LOC1", "STACKS", "CN1", false, "V1", ""⟩

/-- Counterexample data: the second item with barcode `B1`. -/
def c5Item2 : availItem :=
  ⟨"B1", false, false, "", "Lib One", "L1", "Loc One", "LOC1", "STACKS", "CN2", false, "V2", ""⟩

/-- Counterexample data: an index document without `Special Collections`. -/
def c5Doc : solrDocument := ⟨[], []⟩

/-- The derivation result on the counterexample input: two items entries share
barcode `B1`, and the hold option lists `B1` (twice). -/
def c5Result : requestOptionsT :=
  { items :=
      [⟨"B1", "CN1", "Lib One", "Loc One", "", ""⟩,
       ⟨"B1", "CN2", "Lib One", "Loc One", "", ""⟩]
    options :=
      [("hold", ⟨true, false, ["B1", "B1"], ""⟩),
       ("videoReserve", ⟨true, false, [], ""⟩),
       ("scan", ⟨true, false, [], ""⟩),
       ("aeon", ⟨false, false, [], ""⟩)] }

/-- The hold option of `c5Result`. -/
def c5HoldOpt : requestOption := ⟨true, false, ["B1", "B1"], ""⟩

end ILS

namespace ILS

/-- C3 counterexample: the no-op guards test both the DIBS item-type tag and
the presence of parseable `DIBS-INFO` data.  For an item that bears the DIBS
item-type tag but has no `DIBS-INFO` entry, `indibs` is not a no-op (it issues
the PUT), and `nodibs` is not a no-op either (it dereferences the nil parsed
data instead of responding OK). -/
theorem setBarcode_noop_counterexample :
    dibsTaggedNoInfoItem.itemTypeKey = dibsLocationKey ∧
    (∀ ci ∈ dibsTaggedNoInfoItem.customInformation, ci.key ≠ dibsCustomInfoKey) ∧
    setBarcodeInDiBS dibsTaggedNoInfoItem ≠ dibsAction.noop ∧
    setBarcodeNotInDiBS dibsTaggedNoInfoItem ≠ dibsAction.noop ∧
    setBarcodeNotInDiBS dibsTaggedNoInfoItem = dibsAction.panicked := by
  refine ⟨rfl, ?_, ?_, ?_, rfl⟩
  · intro ci hci; simp [dibsTaggedNoInfoItem] at hci
  · decide
  · decide

/-- C3 (amended): `indibs` responds OK without issuing the item PUT exactly
when the fetched item both carries parseable `DIBS-INFO` data and already
bears the DIBS item-type tag; `nodibs` responds OK without issuing the item
PUT exactly when the fetched item carries no parseable `DIBS-INFO` data and
does not bear the DIBS item-type tag. -/
theorem setBarcode_noop_iff (item : sirsiItemInfo) :
    (setBarcodeInDiBS item = dibsAction.noop ↔
      getCustomDiBSData item ≠ none ∧ item.itemTypeKey = dibsLocationKey) ∧
    (setBarcodeNotInDiBS item = dibsAction.noop ↔
      getCustomDiBSData item = none ∧ item.itemTypeKey ≠ dibsLocationKey) := by
  constructor
  · by_cases h : getCustomDiBSData item ≠ none ∧ item.itemTypeKey = dibsLocationKey
    · simp [setBarcodeInDiBS, h]
    · simp only [setBarcodeInDiBS, if_neg h]
      simp [h]
  · by_cases h : getCustomDiBSData item = none ∧ item.itemTypeKey ≠ dibsLocationKey
    · simp [setBarcodeNotInDiBS, h]
    · simp only [setBarcodeNotInDiBS, if_neg h]
      cases hd : getCustomDiBSData item with
      | none =>
        simp [h, hd]
        tauto
      | some dd => simp [h, hd]

/-- Closed instance of `setBarcode_noop_iff` at a concrete item. -/
theorem setBarcode_noop_iff_witness :
    setBarcodeInDiBS dibsStaleInfoItem ≠ dibsAction.noop ∧
    setBarcodeNotInDiBS dibsStaleInfoItem ≠ dibsAction.noop := by
  have h := setBarcode_noop_iff dibsStaleInfoItem
  constructor
  · intro hc
    have := h.1.mp hc
    revert this; decide
  · intro hc
    have := h.2.mp hc
    revert this; decide

/-- `find?` skips a prefix on which the predicate never fires. -/
theorem find?_append_of_none {α : Type} (p : α → Bool) :
    ∀ (l₁ : List α), l₁.find? p = none → ∀ l₂, (l₁ ++ l₂).find? p = l₂.find? p := by
  intro l₁
  induction l₁ with
  | nil => intro _ l₂; simp
  | cons a l ih =>
    intro h l₂
    by_cases hp : p a
    · simp [List.find?_cons, hp] at h
    · simp only [List.cons_append, List.find?_cons, hp] at h ⊢
      exact ih h l₂

/-- C8 counterexample: on an item whose custom-information already contains a
`DIBS-INFO` entry, `nodibs` restores the keys saved in that pre-existing entry
(`getCustomDiBSData` takes the first match), not the keys `indibs` just saved,
so `nodibs (indibs X)` does not restore X's home location and item type. -/
theorem dibsRoundTrip_counterexample :
    dibsRoundTrip dibsStaleInfoItem =
      some ⟨"190951:3:2", "X002", "STACKS", "BOOK", []⟩ ∧
    dibsStaleInfoItem.homeLocationKey ≠ "STACKS" ∧
    dibsStaleInfoItem.itemTypeKey ≠ "BOOK" := by
  refine ⟨by decide, by decide, by decide⟩

/-- C8 (amended): for any item state X whose custom-information contains no
`DIBS-INFO` entry, applying `indibs` and then `nodibs` restores the home
location key and item type key that X had before the toggle, and removes only
the `DIBS-INFO` entry, leaving every other custom-information entry in place. -/
theorem dibsRoundTrip_restores (item : sirsiItemInfo)
    (hno : ∀ ci ∈ item.customInformation, ci.key ≠ dibsCustomInfoKey) :
    ∃ z, dibsRoundTrip item = some z ∧
      z.homeLocationKey = item.homeLocationKey ∧
      z.itemTypeKey = item.itemTypeKey ∧
      z.customInformation = item.customInformation := by
  have hfind : item.customInformation.find? (fun ci => ci.key = dibsCustomInfoKey) = none := by
    rw [List.find?_eq_none]
    intro ci hci
    simpa using hno ci hci
  have hdata : getCustomDiBSData item = none := by
    unfold getCustomDiBSData
    rw [hfind]
  have hin : setBarcodeInDiBS item =
      .put { item with
        homeLocationKey := dibsLocationKey
        itemTypeKey := dibsLocationKey
        customInformation := item.customInformation ++
          [⟨dibsCustomInfoKey, some ⟨item.homeLocationKey, item.itemTypeKey⟩⟩] } := by
    unfold setBarcodeInDiBS
    simp [hdata]
  have hdata2 : getCustomDiBSData
      { item with
        homeLocationKey := dibsLocationKey
        itemTypeKey := dibsLocationKey
        customInformation := item.customInformation ++
          [⟨dibsCustomInfoKey, some ⟨item.homeLocationKey, item.itemTypeKey⟩⟩] } =
      some ⟨item.homeLocationKey, item.itemTypeKey⟩ := by
    unfold getCustomDiBSData
    rw [find?_append_of_none _ _ hfind]
    simp [List.find?_cons, dibsCustomInfoKey]
  have hfilter : (item.customInformation ++
        [(⟨dibsCustomInfoKey, some ⟨item.homeLocationKey, item.itemTypeKey⟩⟩ : customInfo)]).filter
        (fun ci => ci.key ≠ dibsCustomInfoKey) = item.customInformation := by
    rw [List.filter_append]
    have h1 : item.customInformation.filter (fun ci => ci.key ≠ dibsCustomInfoKey) =
        item.customInformation := by
      rw [List.filter_eq_self]
      intro ci hci
      simpa using hno ci hci
    have h2 : ([(⟨dibsCustomInfoKey, some ⟨item.homeLocationKey, item.itemTypeKey⟩⟩ : customInfo)]).filter
        (fun ci => ci.key ≠ dibsCustomInfoKey) = [] := by
      simp
    rw [h1, h2, List.append_nil]
  refine ⟨{ item with
      homeLocationKey := item.homeLocationKey
      itemTypeKey := item.itemTypeKey
      customInformation := item.customInformation }, ?_, rfl, rfl, rfl⟩
  unfold dibsRoundTrip
  rw [hin]
  unfold setBarcodeNotInDiBS
  simp only [hdata2]
  rw [if_neg (by simp)]
  simp only [hfilter]

/-- Closed instance of `dibsRoundTrip_restores` at a concrete item. -/
theorem dibsRoundTrip_restores_witness :
    ∃ z, dibsRoundTrip dibsPlainItem = some z ∧
      z.homeLocationKey = dibsPlainItem.homeLocationKey ∧
      z.itemTypeKey = dibsPlainItem.itemTypeKey ∧
      z.customInformation = dibsPlainItem.customInformation :=
  dibsRoundTrip_restores dibsPlainItem (by decide)

/-- Unfolding equation for one iteration of the retry loop. -/
theorem retrySirsiLoop_succ (oracle : Nat → Option String) (op : String)
    (fuel attempt : Nat) (ovr : List String) :
    retrySirsiLoop oracle op (fuel + 1) attempt ovr =
      match oracle (attempt + 1) with
      | none => ⟨attempt + 1, [(ovr, none)], true⟩
      | some p =>
        if p = "" then ⟨attempt + 1, [(ovr, some p)], false⟩
        else
          let rest := retrySirsiLoop oracle op fuel (attempt + 1) (ovr ++ [applyPosifix op p])
          ⟨rest.attempts, (ovr, some p) :: rest.trace, rest.success⟩ := rfl

/-- The attempt counter advances exactly by the number of recorded attempts. -/
theorem retrySirsiLoop_attempts (oracle : Nat → Option String) (op : String) :
    ∀ fuel attempt ovr, (retrySirsiLoop oracle op fuel attempt ovr).attempts =
      attempt + (retrySirsiLoop oracle op fuel attempt ovr).trace.length := by
  intro fuel
  induction fuel with
  | zero => intro attempt ovr; simp [retrySirsiLoop]
  | succ fuel ih =>
    intro attempt ovr
    rw [retrySirsiLoop_succ]
    cases h : oracle (attempt + 1) with
    | none => simp
    | some p =>
      by_cases hp : p = ""
      · simp [hp]
      · simp only [hp, if_false, ite_false]
        have := ih (attempt + 1) (ovr ++ [applyPosifix op p])
        simp only [List.length_cons]
        omega

/-- At most `fuel` attempts are recorded. -/
theorem retrySirsiLoop_length_le (oracle : Nat → Option String) (op : String) :
    ∀ fuel attempt ovr, (retrySirsiLoop oracle op fuel attempt ovr).trace.length ≤ fuel := by
  intro fuel
  induction fuel with
  | zero => intro attempt ovr; simp [retrySirsiLoop]
  | succ fuel ih =>
    intro attempt ovr
    rw [retrySirsiLoop_succ]
    cases h : oracle (attempt + 1) with
    | none => simp
    | some p =>
      by_cases hp : p = ""
      · simp [hp]
      · simp only [hp, if_false, ite_false, List.length_cons]
        have := ih (attempt + 1) (ovr ++ [applyPosifix op p])
        omega

/-- With fuel available, at least one attempt is made. -/
theorem retrySirsiLoop_ne_nil (oracle : Nat → Option String) (op : String)
    (fuel attempt : Nat) (ovr : List String) (hfuel : 0 < fuel) :
    (retrySirsiLoop oracle op fuel attempt ovr).trace ≠ [] := by
  cases fuel with
  | zero => omega
  | succ fuel =>
    rw [retrySirsiLoop_succ]
    cases h : oracle (attempt + 1) with
    | none => simp
    | some p =>
      by_cases hp : p = ""
      · simp [hp]
      · simp [hp]

/-- With no recorded attempt, the loop reports failure and an unchanged counter. -/
theorem retrySirsiLoop_nil (oracle : Nat → Option String) (op : String) :
    ∀ fuel attempt ovr, (retrySirsiLoop oracle op fuel attempt ovr).trace = [] →
      (retrySirsiLoop oracle op fuel attempt ovr).success = false ∧
      (retrySirsiLoop oracle op fuel attempt ovr).attempts = attempt := by
  intro fuel attempt ovr
  cases fuel with
  | zero => intro _; simp [retrySirsiLoop]
  | succ fuel =>
    intro hnil
    exact absurd hnil (retrySirsiLoop_ne_nil oracle op (fuel + 1) attempt ovr (by omega))

/-- The first recorded attempt uses exactly the override list the loop started with. -/
theorem retrySirsiLoop_head (oracle : Nat → Option String) (op : String)
    (fuel attempt : Nat) (ovr : List String) :
    ∀ hd, (retrySirsiLoop oracle op fuel attempt ovr).trace.head? = some hd → hd.1 = ovr := by
  cases fuel with
  | zero => intro hd h; simp [retrySirsiLoop] at h
  | succ fuel =>
    rw [retrySirsiLoop_succ]
    cases h : oracle (attempt + 1) with
    | none => intro hd hh; simp at hh; rw [← hh]
    | some p =>
      by_cases hp : p = ""
      · simp only [hp, if_true, ite_true]
        intro hd hh; simp at hh; rw [← hh]
      · simp only [hp, if_false, ite_false]
        intro hd hh; simp at hh; rw [← hh]

/-- Attempt `i` of the trace records the oracle outcome of call `attempt + i + 1`. -/
theorem retrySirsiLoop_result (oracle : Nat → Option String) (op : String) :
    ∀ fuel attempt ovr i e,
      (retrySirsiLoop oracle op fuel attempt ovr).trace.get? i = some e →
      e.2 = oracle (attempt + i + 1) := by
  intro fuel
  induction fuel with
  | zero => intro attempt ovr i e h; simp [retrySirsiLoop] at h
  | succ fuel ih =>
    intro attempt ovr i e
    rw [retrySirsiLoop_succ]
    cases h : oracle (attempt + 1) with
    | none =>
      cases i with
      | zero => intro hh; simp at hh; rw [← hh, h]
      | succ j => intro hh; simp at hh
    | some p =>
      by_cases hp : p = ""
      · subst hp
        simp only [ite_true]
        cases i with
        | zero => intro hh; simp at hh; rw [← hh]; exact h.symm
        | succ j => intro hh; simp at hh
      · simp only [hp, if_false, ite_false]
        cases i with
        | zero => intro hh; simp at hh; rw [← hh]; exact h.symm
        | succ j =>
          intro hh
          simp only [List.get?_cons_succ] at hh
          have := ih (attempt + 1) (ovr ++ [applyPosifix op p]) j e hh
          rw [this]
          congr 1
          omega

/-- Every failed non-final attempt carries a non-empty prompt type, and the next
attempt's header list is the previous one with that (suffixed) prompt appended. -/
theorem retrySirsiLoop_chain (oracle : Nat → Option String) (op : String) :
    ∀ fuel attempt ovr i e1 e2,
      (retrySirsiLoop oracle op fuel attempt ovr).trace.get? i = some e1 →
      (retrySirsiLoop oracle op fuel attempt ovr).trace.get? (i + 1) = some e2 →
      ∃ p, e1.2 = some p ∧ p ≠ "" ∧ e2.1 = e1.1 ++ [applyPosifix op p] := by
  intro fuel
  induction fuel with
  | zero => intro attempt ovr i e1 e2 h1 h2; simp [retrySirsiLoop] at h1
  | succ fuel ih =>
    intro attempt ovr i e1 e2
    rw [retrySirsiLoop_succ]
    cases h : oracle (attempt + 1) with
    | none =>
      cases i with
      | zero => intro h1 h2; simp at h2
      | succ j => intro h1 h2; simp at h1
    | some p =>
      by_cases hp : p = ""
      · simp only [hp, if_true, ite_true]
        cases i with
        | zero => intro h1 h2; simp at h2
        | succ j => intro h1 h2; simp at h1
      · simp only [hp, if_false, ite_false]
        cases i with
        | zero =>
          intro h1 h2
          simp only [List.get?_cons_zero, Option.some_inj] at h1
          simp only [List.get?_cons_succ] at h2
          refine ⟨p, ?_, hp, ?_⟩
          · rw [← h1]
          · have hhd : (retrySirsiLoop oracle op fuel (attempt + 1)
                (ovr ++ [applyPosifix op p])).trace.head? = some e2 := by
              rw [← List.get?_zero]; exact h2
            have := retrySirsiLoop_head oracle op fuel (attempt + 1)
              (ovr ++ [applyPosifix op p]) e2 hhd
            rw [this, ← h1]
        | succ j =>
          intro h1 h2
          simp only [List.get?_cons_succ] at h1 h2
          exact ih (attempt + 1) (ovr ++ [applyPosifix op p]) j e1 e2 h1 h2

/-- The loop reports success exactly when its final attempt succeeded. -/
theorem retrySirsiLoop_success (oracle : Nat → Option String) (op : String) :
    ∀ fuel attempt ovr, (retrySirsiLoop oracle op fuel attempt ovr).trace ≠ [] →
      ((retrySirsiLoop oracle op fuel attempt ovr).success = true ↔
        oracle (retrySirsiLoop oracle op fuel attempt ovr).attempts = none) := by
  intro fuel
  induction fuel with
  | zero => intro attempt ovr h; simp [retrySirsiLoop] at h
  | succ fuel ih =>
    intro attempt ovr _
    rw [retrySirsiLoop_succ]
    cases h : oracle (attempt + 1) with
    | none => simpa using h
    | some p =>
      by_cases hp : p = ""
      · simp only [hp, if_true, ite_true]
        simp [h, hp]
      · simp only [hp, if_false, ite_false]
        by_cases hnil : (retrySirsiLoop oracle op fuel (attempt + 1)
            (ovr ++ [applyPosifix op p])).trace = []
        · have hres := retrySirsiLoop_nil oracle op fuel (attempt + 1)
            (ovr ++ [applyPosifix op p]) hnil
          simp only [hres.1, hres.2, h]
          simp
        · exact ih (attempt + 1) (ovr ++ [applyPosifix op p]) hnil

/-- When the loop gives up before exhausting its fuel, the final attempt failed
with an empty parsed prompt type (the unrecoverable break). -/
theorem retrySirsiLoop_break (oracle : Nat → Option String) (op : String) :
    ∀ fuel attempt ovr, (retrySirsiLoop oracle op fuel attempt ovr).success = false →
      (retrySirsiLoop oracle op fuel attempt ovr).trace.length < fuel →
      oracle (retrySirsiLoop oracle op fuel attempt ovr).attempts = some "" := by
  intro fuel
  induction fuel with
  | zero => intro attempt ovr _ hlt; omega
  | succ fuel ih =>
    intro attempt ovr
    rw [retrySirsiLoop_succ]
    cases h : oracle (attempt + 1) with
    | none => intro hs; simp at hs
    | some p =>
      by_cases hp : p = ""
      · simp only [hp, if_true, ite_true]
        intro _ _
        simpa [hp] using h
      · simp only [hp, if_false, ite_false]
        intro hs hlt
        simp only [List.length_cons] at hlt
        have hlt2 : (retrySirsiLoop oracle op fuel (attempt + 1)
            (ovr ++ [applyPosifix op p])).trace.length < fuel := by omega
        by_cases hnil : (retrySirsiLoop oracle op fuel (attempt + 1)
            (ovr ++ [applyPosifix op p])).trace = []
        · exfalso
          have hf : 0 < fuel := by
            rw [hnil] at hlt2; simpa using hlt2
          exact retrySirsiLoop_ne_nil oracle op fuel (attempt + 1)
            (ovr ++ [applyPosifix op p]) hf hnil
        · exact ih (attempt + 1) (ovr ++ [applyPosifix op p]) hs hlt2

/-- C1: in every invocation of the prompt-override retry engine, at most 5
attempts are posted; the first attempt carries exactly the base override list
as its `SD-Prompt-Return` headers; attempt `i` observes the upstream outcome of
call `i`; after every failed attempt whose parsed prompt type is non-empty, the
next attempt's header list is the previous list with that prompt type (suffixed
with `/` and the posifix when the posifix is non-empty) appended, so each
accumulated override is re-sent on every subsequent attempt; the loop stops on
the first success (success is reported exactly when the final attempt
succeeded), and an early stop without success means the final attempt's body
parsed to an empty prompt type. -/
theorem retrySirsiRequest_spec (oracle : Nat → Option String) (overrides : List String)
    (op : String) :
    (1 ≤ (retrySirsiRequest oracle overrides op).attempts ∧
      (retrySirsiRequest oracle overrides op).attempts ≤ 5) ∧
    (retrySirsiRequest oracle overrides op).trace.length =
      (retrySirsiRequest oracle overrides op).attempts ∧
    (∀ hd, (retrySirsiRequest oracle overrides op).trace.head? = some hd →
      hd.1 = overrides) ∧
    (∀ i e, (retrySirsiRequest oracle overrides op).trace.get? i = some e →
      e.2 = oracle (i + 1)) ∧
    (∀ i e1 e2, (retrySirsiRequest oracle overrides op).trace.get? i = some e1 →
      (retrySirsiRequest oracle overrides op).trace.get? (i + 1) = some e2 →
      ∃ p, e1.2 = some p ∧ p ≠ "" ∧ e2.1 = e1.1 ++ [applyPosifix op p]) ∧
    ((retrySirsiRequest oracle overrides op).success = true ↔
      oracle (retrySirsiRequest oracle overrides op).attempts = none) ∧
    ((retrySirsiRequest oracle overrides op).success = false →
      (retrySirsiRequest oracle overrides op).attempts < 5 →
      oracle (retrySirsiRequest oracle overrides op).attempts = some "") := by
  have hlen := retrySirsiLoop_length_le oracle op 5 0 overrides
  have hatt := retrySirsiLoop_attempts oracle op 5 0 overrides
  have hne := retrySirsiLoop_ne_nil oracle op 5 0 overrides (by omega)
  have hne' : 0 < (retrySirsiLoop oracle op 5 0 overrides).trace.length := by
    cases hh : (retrySirsiLoop oracle op 5 0 overrides).trace with
    | nil => exact absurd hh hne
    | cons a l => simp [hh]
  refine ⟨⟨?_, ?_⟩, ?_, ?_, ?_, ?_, ?_, ?_⟩
  · unfold retrySirsiRequest; omega
  · unfold retrySirsiRequest; omega
  · unfold retrySirsiRequest; omega
  · intro hd h
    exact retrySirsiLoop_head oracle op 5 0 overrides hd h
  · intro i e h
    have := retrySirsiLoop_result oracle op 5 0 overrides i e h
    simpa using this
  · intro i e1 e2 h1 h2
    exact retrySirsiLoop_chain oracle op 5 0 overrides i e1 e2 h1 h2
  · exact retrySirsiLoop_success oracle op 5 0 overrides hne
  · intro hs hlt
    refine retrySirsiLoop_break oracle op 5 0 overrides hs ?_
    unfold retrySirsiRequest at hlt
    omega

/-- Closed instance of `retrySirsiRequest_spec`: with a first attempt failing on
prompt `CIRC_NONCHARGEABLE_OVRCD` and a second succeeding, the engine stops
after 2 of at most 5 attempts, sending the base override alone first and then
together with the suffixed prompt. -/
theorem retrySirsiRequest_spec_witness :
    (retrySirsiRequest c1Oracle ["CKOBLOCKS"] "DIBSDIBS").attempts ≤ 5 ∧
    (retrySirsiRequest c1Oracle ["CKOBLOCKS"] "DIBSDIBS").attempts = 2 ∧
    (retrySirsiRequest c1Oracle ["CKOBLOCKS"] "DIBSDIBS").success = true ∧
    (retrySirsiRequest c1Oracle ["CKOBLOCKS"] "DIBSDIBS").trace.map Prod.fst =
      [["CKOBLOCKS"], ["CKOBLOCKS", "CIRC_NONCHARGEABLE_OVRCD/DIBSDIBS"]] := by
  refine ⟨(retrySirsiRequest_spec c1Oracle ["CKOBLOCKS"] "DIBSDIBS").1.2, ?_, ?_, ?_⟩
  · decide
  · decide
  · decide

/-- `findTransitHold` returns the first hold with the sought key, together with
the input list with exactly that occurrence removed. -/
theorem findTransitHold_spec (k : String) :
    ∀ l th rem, findTransitHold k l = some (th, rem) →
      th.key = k ∧ ∃ pre post, l = pre ++ th :: post ∧ rem = pre ++ post ∧
        ∀ h ∈ pre, h.key ≠ k := by
  intro l
  induction l with
  | nil => intro th rem h; simp [findTransitHold] at h
  | cons a rest ih =>
    intro th rem h
    by_cases ha : a.key = k
    · simp only [findTransitHold, if_pos ha, Option.some_inj, Prod.mk.injEq] at h
      refine ⟨h.1 ▸ ha, [], rest, ?_, ?_, ?_⟩
      · simp [h.1]
      · simp [h.2]
      · intro x hx; simp at hx
    · simp only [findTransitHold, if_neg ha, Option.map_eq_some'] at h
      obtain ⟨⟨th', rem'⟩, hfind, heq⟩ := h
      simp only [Prod.mk.injEq] at heq
      obtain ⟨hkey, hex⟩ := ih th' rem' hfind
      obtain ⟨pre, post, hl, hr, hp⟩ := hex
      refine ⟨heq.1 ▸ hkey, a :: pre, post, ?_, ?_, ?_⟩
      · rw [heq.1] at hl; rw [hl]; rfl
      · rw [← heq.2, hr]; rfl
      · intro x hx
        rcases List.mem_cons.mp hx with hx | hx
        · rw [hx]; exact ha
        · exact hp x hx

/-- `findTransitHold` finds nothing when no hold carries the sought key. -/
theorem findTransitHold_eq_none (k : String) :
    ∀ l, (∀ h ∈ l, h.key ≠ k) → findTransitHold k l = none := by
  intro l
  induction l with
  | nil => intro _; rfl
  | cons a rest ih =>
    intro hall
    have ha : ¬a.key = k := hall a (by simp)
    simp only [findTransitHold, if_neg ha]
    rw [ih (fun h hh => hall h (by simp [hh]))]
    rfl

/-- C2: when the scanned item has a transit record whose hold-record key
matches a fillable hold, the candidate list places first the first fillable
hold with that key, marked `untransit`; that hold is removed from the
fillable-hold list — so when the key occurs once among the fillable holds it
occurs exactly once among the candidates — and every remaining fillable hold
follows in its original order with `untransit = false`. -/
theorem fillHoldCandidates_transit_first (barcode : String) (item : sirsiBarcodeScanItem)
    (t : sirsiTransitRec) (k : String) (th : sirsiHoldRec) (rem : List sirsiHoldRec)
    (ht : item.transit = some t) (hk : t.holdRecordKey = some k)
    (hfind : findTransitHold k item.fillableHolds = some (th, rem)) :
    fillHoldCandidates barcode item =
      .ok (mkFillHoldInfo barcode th true ::
        rem.map (fun h => mkFillHoldInfo barcode h false)) ∧
    th.key = k ∧
    (∃ pre post, item.fillableHolds = pre ++ th :: post ∧ rem = pre ++ post ∧
      ∀ h ∈ pre, h.key ≠ k) ∧
    (mkFillHoldInfo barcode th true).untransit = true ∧
    (∀ c ∈ rem.map (fun h => mkFillHoldInfo barcode h false), c.untransit = false) ∧
    (item.fillableHolds.countP (fun h => h.key = k) = 1 →
      (mkFillHoldInfo barcode th true ::
        rem.map (fun h => mkFillHoldInfo barcode h false)).countP
          (fun c => c.key = k) = 1) := by
  obtain ⟨hkey, pre, post, hl, hr, hp⟩ := findTransitHold_spec k item.fillableHolds th rem hfind
  have hguard : fillHoldNoHoldGuard item = false := by
    unfold fillHoldNoHoldGuard
    rw [ht]
    simp [hk]
  refine ⟨?_, hkey, ⟨pre, post, hl, hr, hp⟩, rfl, ?_, ?_⟩
  · unfold fillHoldCandidates
    rw [hguard]
    simp only [Bool.false_eq_true, if_false, ite_false, ht, hk, hfind]
  · intro c hc
    simp only [List.mem_map] at hc
    obtain ⟨h, _, hh⟩ := hc
    rw [← hh]
    rfl
  · intro hcount
    have hmap : (rem.map (fun h => mkFillHoldInfo barcode h false)).countP
        (fun c => c.key = k) = rem.countP (fun h => h.key = k) := by
      rw [List.countP_map]
      rfl
    have hcount2 : rem.countP (fun h => h.key = k) = 0 := by
      rw [hl] at hcount
      rw [hr]
      rw [List.countP_append] at hcount ⊢
      rw [List.countP_cons] at hcount
      simp only [hkey] at hcount
      simp only [decide_True, if_true, ite_true] at hcount
      omega
    simp only [List.countP_cons, hmap, hcount2]
    simp [mkFillHoldInfo, hkey]

/-- Closed instance of `fillHoldCandidates_transit_first` on an item in transit
for the second of two fillable holds. -/
theorem fillHoldCandidates_transit_first_witness :
    fillHoldCandidates "35007031847747" c2Item =
      .ok (mkFillHoldInfo "35007031847747" c2HoldB true ::
        [c2HoldA].map (fun h => mkFillHoldInfo "35007031847747" h false)) ∧
    [c2HoldA, c2HoldB].countP (fun h => h.key = "H2") = 1 ∧
    (mkFillHoldInfo "35007031847747" c2HoldB true ::
      [c2HoldA].map (fun h => mkFillHoldInfo "35007031847747" h false)).countP
        (fun c => c.key = "H2") = 1 := by
  have h := fillHoldCandidates_transit_first "35007031847747" c2Item
    ⟨"CLEMONS", some "H2"⟩ "H2" c2HoldB [c2HoldA] (by decide) (by decide) (by decide)
  exact ⟨h.1, by decide, h.2.2.2.2.2 (by decide)⟩

/-- C10: when the scanned item has a transit record whose hold-record key
matches no fillable hold, `fillHold` responds HTTP 500 with
`unable to find hold data in transit item` and issues no untransit and no
checkout call, whatever the circulation upstream would have answered. -/
theorem fillHold_transit_missing (barcode : String) (item : sirsiBarcodeScanItem)
    (t : sirsiTransitRec) (k : String)
    (untransitOracle : fillHoldInfo → Except requestError String)
    (checkoutOracle : fillHoldInfo → Option requestError)
    (parseMessageList : String → List sirsiMessage)
    (ht : item.transit = some t) (hk : t.holdRecordKey = some k)
    (hmiss : ∀ h ∈ item.fillableHolds, h.key ≠ k) :
    fillHold barcode item untransitOracle checkoutOracle parseMessageList =
      ⟨[], [], .serverError "unable to find hold data in transit item"⟩ := by
  have hguard : fillHoldNoHoldGuard item = false := by
    unfold fillHoldNoHoldGuard
    rw [ht]
    simp [hk]
  have hcand : fillHoldCandidates barcode item = .error .transitHoldMissing := by
    unfold fillHoldCandidates
    rw [hguard]
    simp only [Bool.false_eq_true, if_false, ite_false, ht, hk,
      findTransitHold_eq_none k item.fillableHolds hmiss]
  unfold fillHold
  rw [hcand]

/-- Closed instance of `fillHold_transit_missing` on an item in transit for a
hold absent from the fillable list. -/
theorem fillHold_transit_missing_witness :
    fillHold "35007031847747" c10Item (fun _ => .ok "ON_SHELF") (fun _ => none)
        (fun _ => []) =
      ⟨[], [], .serverError "unable to find hold data in transit item"⟩ :=
  fillHold_transit_missing "35007031847747" c10Item ⟨"CLEMONS", some "H9"⟩ "H9"
    (fun _ => .ok "ON_SHELF") (fun _ => none) (fun _ => [])
    (by decide) (by decide) (by decide)

/-- Every item the inner availability loop emits comes from an unshadowed item
record whose current location is found in the policy table, unshadowed and not
online. -/
theorem processItemList_mem (libs : List libraryRec) (lc : locationContext)
    (crOracle : String → Option (List courseReserveInfo)) (callRec : sirsiCallRec) :
    ∀ items out, processItemList libs lc crOracle callRec items = .ok out →
      ∀ ai ∈ out, ∃ ir ∈ items, ir.shadowed = false ∧
        ∃ loc, lc.find ir.currentLocationKey = some loc ∧
          loc.shadowed = false ∧ loc.online = false ∧
          ai = mkAvailItem libs lc crOracle callRec ir := by
  intro items
  induction items with
  | nil =>
    intro out h ai hai
    simp only [processItemList, Except.ok.injEq] at h
    rw [← h] at hai
    simp at hai
  | cons ir rest ih =>
    intro out h ai hai
    by_cases hsh : ir.shadowed = true
    · simp only [processItemList, if_pos hsh] at h
      obtain ⟨ir', hmem, hrest⟩ := ih out h ai hai
      exact ⟨ir', List.mem_cons_of_mem _ hmem, hrest⟩
    · simp only [processItemList, if_neg hsh] at h
      cases hfind : lc.find ir.currentLocationKey with
      | none => simp only [hfind] at h; exact absurd h (by simp)
      | some currLoc =>
        simp only [hfind] at h
        by_cases hso : (currLoc.shadowed || currLoc.online) = true
        · rw [if_pos hso] at h
          obtain ⟨ir', hmem, hrest⟩ := ih out h ai hai
          exact ⟨ir', List.mem_cons_of_mem _ hmem, hrest⟩
        · rw [if_neg hso] at h
          cases hrec : processItemList libs lc crOracle callRec rest with
          | error e => simp only [hrec] at h; exact absurd h (by simp)
          | ok out' =>
            simp only [hrec, Except.ok.injEq] at h
            rw [← h] at hai
            rcases List.mem_cons.mp hai with hai | hai
            · refine ⟨ir, List.mem_cons_self _ _, by simpa using hsh, currLoc, hfind, ?_, ?_, hai⟩
              · simp only [Bool.or_eq_true, not_or] at hso
                simpa using hso.1
              · simp only [Bool.or_eq_true, not_or] at hso
                simpa using hso.2
            · obtain ⟨ir', hmem, hrest⟩ := ih out' hrec ai hai
              exact ⟨ir', List.mem_cons_of_mem _ hmem, hrest⟩

/-- C4: every `availItem` emitted by the availability aggregation comes from an
unshadowed call record and an unshadowed item record, and its current
location's policy-table record has both `shadowed` and `online` false. -/
theorem processAvailabilityItems_filter (libs : List libraryRec) (lc : locationContext)
    (crOracle : String → Option (List courseReserveInfo)) (bibResp : sirsiBibResponse)
    (out : List availItem)
    (h : processAvailabilityItems libs lc crOracle bibResp = .ok out) :
    ∀ ai ∈ out, ∃ cr ∈ bibResp.callList, cr.shadowed = false ∧
      ∃ ir ∈ cr.itemList, ir.shadowed = false ∧
        ∃ loc, lc.find ir.currentLocationKey = some loc ∧
          loc.shadowed = false ∧ loc.online = false ∧
          ai = mkAvailItem libs lc crOracle cr ir := by
  unfold processAvailabilityItems at h
  revert out h
  generalize bibResp.callList = calls
  induction calls with
  | nil =>
    intro out h ai hai
    simp only [processCallList, Except.ok.injEq] at h
    rw [← h] at hai
    simp at hai
  | cons cr rest ih =>
    intro out h ai hai
    by_cases hsh : cr.shadowed = true
    · simp only [processCallList, if_pos hsh] at h
      obtain ⟨cr', hmem, hrest⟩ := ih out h ai hai
      exact ⟨cr', List.mem_cons_of_mem _ hmem, hrest⟩
    · simp only [processCallList, if_neg hsh] at h
      cases hitems : processItemList libs lc crOracle cr cr.itemList with
      | error e => simp only [hitems] at h; exact absurd h (by simp)
      | ok items =>
        simp only [hitems] at h
        cases hrec : processCallList libs lc crOracle rest with
        | error e => simp only [hrec] at h; exact absurd h (by simp)
        | ok more =>
          simp only [hrec, Except.ok.injEq] at h
          rw [← h] at hai
          rcases List.mem_append.mp hai with hai | hai
          · obtain ⟨ir, hmem, hrest⟩ :=
              processItemList_mem libs lc crOracle cr cr.itemList items hitems ai hai
            exact ⟨cr, List.mem_cons_self _ _, by simpa using hsh, ir, hmem, hrest⟩
          · obtain ⟨cr', hmem, hrest⟩ := ih more hrec ai hai
            exact ⟨cr', List.mem_cons_of_mem _ hmem, hrest⟩

/-- Closed instance of `processAvailabilityItems_filter` on a one-item bib. -/
theorem processAvailabilityItems_filter_witness :
    ∃ cr ∈ c4Bib.callList, cr.shadowed = false ∧
      ∃ ir ∈ cr.itemList, ir.shadowed = false ∧
        ∃ loc, c4Lc.find ir.currentLocationKey = some loc ∧
          loc.shadowed = false ∧ loc.online = false ∧
          c4Item = mkAvailItem [] c4Lc (fun _ => none) cr ir :=
  processAvailabilityItems_filter [] c4Lc (fun _ => none) c4Bib [c4Item] (by decide)
    c4Item (by decide)

/-- C9 (code bug): `locationContext.find` returns a nil pointer for a key
absent from the policy table and `processAvailabilityItems` dereferences it
unconditionally, so an unshadowed item whose current-location key is unknown —
here with the empty table a failed refresh leaves behind — makes the
aggregation panic instead of returning a result. -/
theorem processAvailabilityItems_nil_location_panics :
    c9Lc.find "UNKNOWN-LOC" = none ∧
    processAvailabilityItems [] c9Lc (fun _ => none) c9Bib = .error () := by
  constructor
  · decide
  · decide

/-- Folding `holdErrorsStep` over a message list appends, to any accumulator,
the non-`keyParseError` message texts to the sirsi list and one
`Invalid title key` per `keyParseError` message to the item-barcode list. -/
theorem holdErrors_foldl (msgs : List sirsiMessage) :
    ∀ acc : holdErrorsData, msgs.foldl holdErrorsStep acc =
      ⟨acc.sirsi ++ (msgs.filter (fun m => m.code ≠ "keyParseError")).map
          (fun m => m.message),
        acc.itemBarcode ++ (msgs.filter (fun m => m.code = "keyParseError")).map
          (fun _ => "Invalid title key")⟩ := by
  induction msgs with
  | nil => intro acc; simp
  | cons m rest ih =>
    intro acc
    by_cases hc : m.code = "keyParseError"
    · rw [List.foldl_cons, ih]
      simp [holdErrorsStep, hc, List.filter_cons]
    · rw [List.foldl_cons, ih]
      simp [holdErrorsStep, hc, List.filter_cons]

/-- C6: when the upstream rejects a hold or scan with a structured message
list, the handler responds HTTP 200 with its envelope, whose errors block maps
every `keyParseError` message to `Invalid title key` in the item-barcode list
and every other message to its text in the sirsi list. -/
theorem createHold_structured_errors (claims : v4Claims) (holdReq : holdRequest)
    (holdErr : requestError) (msgs : List sirsiMessage)
    (parseMessageList : String → Except String (List sirsiMessage))
    (hparse : parseMessageList holdErr.message = .ok msgs) :
    createHold claims holdReq (some holdErr) parseMessageList =
      (200, ⟨holdReq.pickupLibrary, holdReq.itemBarcode, claims.userID,
        some ⟨(msgs.filter (fun m => m.code ≠ "keyParseError")).map (fun m => m.message),
          (msgs.filter (fun m => m.code = "keyParseError")).map
            (fun _ => "Invalid title key")⟩⟩) := by
  unfold createHold getHoldErrorMessages
  simp only [hparse]
  rw [holdErrors_foldl]
  simp

/-- Closed instance of `createHold_structured_errors` on scenario 4 of §8. -/
theorem createHold_structured_errors_witness :
    createHold ⟨"mst3k", "666666666", "FACULTY", "CLEMONS", true⟩
        ⟨"CLEMONS", "bad", ""⟩ (some ⟨400, "rawbody"⟩) (fun _ => .ok c6Messages) =
      (200, ⟨"CLEMONS", "bad", "mst3k",
        some ⟨["User already has a hold on this material"], ["Invalid title key"]⟩⟩) := by
  have h := createHold_structured_errors ⟨"mst3k", "666666666", "FACULTY", "CLEMONS", true⟩
    ⟨"CLEMONS", "bad", ""⟩ ⟨400, "rawbody"⟩ c6Messages (fun _ => .ok c6Messages) rfl
  rw [h]
  decide

/-- C7: `deleteHold` issues the upstream delete exactly when the caller's user
id equals the hold's patron `alternateID` case-insensitively and the hold is
`PLACED` with non-`RUSH` recall; an owner mismatch yields 400
`you do not hold this item` without deleting, a failed status check yields 400
`hold cannot be cancelled` without deleting, and an upstream 204 on the delete
is reported as success (200 `deleted`). -/
theorem deleteHold_guards (holdID userID raw : String)
    (parseHold : String → Except String sirsiHoldRec) (hold : sirsiHoldRec)
    (deleteResult : Option requestError)
    (hparse : parseHold raw = .ok hold) :
    ((deleteHold holdID userID (.ok raw) parseHold deleteResult).deleteIssued = true ↔
      (goUpper hold.patron.alternateID = goUpper userID ∧
        hold.status = "PLACED" ∧ hold.recallStatus ≠ "RUSH")) ∧
    (goUpper hold.patron.alternateID ≠ goUpper userID →
      deleteHold holdID userID (.ok raw) parseHold deleteResult =
        ⟨400, "you do not hold this item", false⟩) ∧
    (goUpper hold.patron.alternateID = goUpper userID →
      ¬(hold.status = "PLACED" ∧ hold.recallStatus ≠ "RUSH") →
      deleteHold holdID userID (.ok raw) parseHold deleteResult =
        ⟨400, "hold cannot be cancelled", false⟩) ∧
    (goUpper hold.patron.alternateID = goUpper userID →
      hold.status = "PLACED" → hold.recallStatus ≠ "RUSH" →
      (∀ e, deleteResult = some e → e.statusCode = 204 →
        deleteHold holdID userID (.ok raw) parseHold deleteResult =
          ⟨200, "deleted", true⟩) ∧
      (deleteResult = none →
        deleteHold holdID userID (.ok raw) parseHold deleteResult =
          ⟨200, "deleted", true⟩)) := by
  by_cases howner : goUpper hold.patron.alternateID = goUpper userID
  · by_cases hstat : hold.status = "PLACED" ∧ hold.recallStatus ≠ "RUSH"
    · cases hdel : deleteResult with
      | none =>
        refine ⟨?_, ?_, ?_, ?_⟩
        · simp [deleteHold, hparse, howner, hstat]
        · intro hc; exact absurd howner hc
        · intro _ hc; exact absurd hstat hc
        · intro _ _ _
          refine ⟨?_, ?_⟩
          · intro e he; exact absurd he (by simp)
          · intro _; simp [deleteHold, hparse, howner, hstat]
      | some e =>
        by_cases h204 : e.statusCode = 204
        · refine ⟨?_, ?_, ?_, ?_⟩
          · simp [deleteHold, hparse, howner, hstat, h204]
          · intro hc; exact absurd howner hc
          · intro _ hc; exact absurd hstat hc
          · intro _ _ _
            refine ⟨?_, ?_⟩
            · intro e' he' _
              simp only [Option.some_inj] at he'
              subst he'
              simp [deleteHold, hparse, howner, hstat, h204]
            · intro hc; exact absurd hc (by simp)
        · refine ⟨?_, ?_, ?_, ?_⟩
          · simp [deleteHold, hparse, howner, hstat, h204]
          · intro hc; exact absurd howner hc
          · intro _ hc; exact absurd hstat hc
          · intro _ _ _
            refine ⟨?_, ?_⟩
            · intro e' he' he204
              simp only [Option.some_inj] at he'
              subst he'
              exact absurd he204 h204
            · intro hc; exact absurd hc (by simp)
    · refine ⟨?_, ?_, ?_, ?_⟩
      · simp [deleteHold, hparse, howner, hstat]
      · intro hc; exact absurd howner hc
      · intro _ _; simp [deleteHold, hparse, howner, hstat]
      · intro _ hp hr; exact absurd ⟨hp, hr⟩ hstat
  · refine ⟨?_, ?_, ?_, ?_⟩
    · simp [deleteHold, hparse, howner]
    · intro _; simp [deleteHold, hparse, howner]
    · intro hc; exact absurd hc howner
    · intro hc; exact absurd hc howner

/-- Closed instance of `deleteHold_guards`: the owner cancels a placed,
non-rush hold and the upstream answers 204. -/
theorem deleteHold_guards_witness :
    deleteHold "H7" "MST3K" (.ok "rawhold") (fun _ => .ok c7Hold)
        (some ⟨204, ""⟩) = ⟨200, "deleted", true⟩ :=
  (((deleteHold_guards "H7" "MST3K" "rawhold" (fun _ => .ok c7Hold) c7Hold
      (some ⟨204, ""⟩) rfl).2.2.2 (by decide) (by decide) (by decide)).1
    ⟨204, ""⟩ rfl (by decide))

/-- Bind of a successful `Except` computation. -/
theorem exceptBind_ok {α β γ : Type} (a : α) (f : α → Except γ β) :
    (Except.ok a >>= f) = f a := rfl

/-- Bind of a failed `Except` computation. -/
theorem exceptBind_err {α β γ : Type} (e : γ) (f : α → Except γ β) :
    ((Except.error e : Except γ α) >>= f) = Except.error e := rfl

/-- Appending items entries keeps every option barcode covered. -/
theorem covered_append_items (items : List holdableItem) (more : List holdableItem)
    (opts : List (String × requestOption)) (h : barcodesCovered ⟨items, opts⟩) :
    barcodesCovered ⟨items ++ more, opts⟩ := by
  intro pr hpr b hb
  obtain ⟨e, he, heb⟩ := h pr hpr b hb
  exact ⟨e, List.mem_append_left _ he, heb⟩

/-- Appending a barcode that some items entry carries keeps coverage. -/
theorem covered_optAppendBarcode (ro : requestOptionsT) (k b : String)
    (h : barcodesCovered ro) (hb : ∃ e ∈ ro.items, e.barcode = b) :
    barcodesCovered ⟨ro.items, optAppendBarcode ro.options k b⟩ := by
  intro pr hpr b' hb'
  unfold optAppendBarcode at hpr
  obtain ⟨q, hq, hfq⟩ := List.mem_map.mp hpr
  by_cases hk : q.1 = k
  · rw [if_pos hk] at hfq
    rw [← hfq] at hb'
    simp only at hb'
    rcases List.mem_append.mp hb' with hmem | hmem
    · exact h q hq b' hmem
    · obtain ⟨e, he, heb⟩ := hb
      have : b' = b := by simpa using hmem
      exact ⟨e, he, this ▸ heb⟩
  · rw [if_neg hk] at hfq
    rw [← hfq] at hb'
    exact h q hq b' hb'

/-- Inserting an option with no barcodes keeps coverage. -/
theorem covered_optInsert_emptyBarcodes (ro : requestOptionsT) (k : String)
    (v : requestOption) (h : barcodesCovered ro) (hv : v.itemBarcodes = []) :
    barcodesCovered ⟨ro.items, optInsert ro.options k v⟩ := by
  intro pr hpr b hb
  unfold optInsert at hpr
  by_cases hany : ro.options.any (fun p => p.1 = k) = true
  · rw [if_pos hany] at hpr
    obtain ⟨q, hq, hfq⟩ := List.mem_map.mp hpr
    by_cases hk : q.1 = k
    · rw [if_pos hk] at hfq
      rw [← hfq] at hb
      simp only [hv] at hb
      simp at hb
    · rw [if_neg hk] at hfq
      rw [← hfq] at hb
      exact h q hq b hb
  · rw [if_neg hany] at hpr
    rcases List.mem_append.mp hpr with hmem | hmem
    · exact h pr hmem b hb
    · have hpr2 : pr = (k, v) := by simpa using hmem
      rw [hpr2] at hb
      simp only [hv] at hb
      simp at hb

/-- Deleting an option keeps coverage. -/
theorem covered_optDelete (ro : requestOptionsT) (k : String)
    (h : barcodesCovered ro) : barcodesCovered ⟨ro.items, optDelete ro.options k⟩ := by
  intro pr hpr b hb
  exact h pr (List.mem_of_mem_filter hpr) b hb

/-- The scan path keeps coverage, and when it reports the item as just added,
the holdable is in the resulting items list. -/
theorem scanPath_covered (claims : v4Claims) (st : sirsiOptionsState) (item : availItem)
    (hi : holdableItem) (h : barcodesCovered st.ro) :
    barcodesCovered (scanPath claims st item hi).2.ro ∧
    ((scanPath claims st item hi).1 = true → hi ∈ (scanPath claims st item hi).2.ro.items) := by
  unfold scanPath
  by_cases h1 : item.isVideo = false ∧ st.noScans = false ∧ item.libraryID ≠ "SPEC-COLL"
  · rw [if_pos h1]
    by_cases h2 : (["HISTCOL", "RARESHL", "RAREOVS", "RAREVLT"].contains item.homeLocationID) = true
    · rw [if_pos h2]
      exact ⟨covered_optDelete st.ro "scan" h, by intro hc; simp at hc⟩
    · rw [if_neg h2]
      by_cases h3 : goUpper claims.profile = "UNDERGRAD" ∧ item.homeLocationID ≠ "BY-REQUEST"
      · rw [if_pos h3]
        exact ⟨h, by intro hc; simp at hc⟩
      · rw [if_neg h3]
        by_cases h4 : holdableExists hi item.volume st.ro.items = false
        · rw [if_pos h4]
          refine ⟨?_, ?_⟩
          · refine covered_optAppendBarcode ⟨st.ro.items ++ [hi], st.ro.options⟩ "scan"
              hi.barcode (covered_append_items st.ro.items [hi] st.ro.options ?_) ?_
            · intro pr hpr b hb; exact h pr hpr b hb
            · exact ⟨hi, by simp, rfl⟩
          · intro _; simp
        · rw [if_neg h4]
          exact ⟨h, by intro hc; simp at hc⟩
  · rw [if_neg h1]
    exact ⟨h, by intro hc; simp at hc⟩

/-- The hold/video path keeps coverage, provided a just-added holdable is
already in the items list. -/
theorem holdPath_covered (st : sirsiOptionsState) (item : availItem) (hi : holdableItem)
    (itemJustAdded : Bool) (h : barcodesCovered st.ro)
    (hadd : itemJustAdded = true → hi ∈ st.ro.items) :
    barcodesCovered (holdPath st item hi itemJustAdded).ro := by
  unfold holdPath
  by_cases hcond : holdableExists hi item.volume st.ro.items = false ∨ itemJustAdded = true
  · rw [if_pos hcond]
    by_cases hja : itemJustAdded = false
    · rw [if_pos hja]
      have hcov1 : barcodesCovered ⟨st.ro.items ++ [hi], st.ro.options⟩ :=
        covered_append_items st.ro.items [hi] st.ro.options (by intro pr hpr b hb; exact h pr hpr b hb)
      have hmem : hi ∈ st.ro.items ++ [hi] := by simp
      have hcov2 : barcodesCovered ⟨st.ro.items ++ [hi],
          optAppendBarcode st.ro.options "hold" hi.barcode⟩ :=
        covered_optAppendBarcode ⟨st.ro.items ++ [hi], st.ro.options⟩ "hold" hi.barcode
          hcov1 ⟨hi, hmem, rfl⟩
      by_cases hv : item.isVideo = true
      · rw [if_pos hv]
        exact covered_optAppendBarcode
          ⟨st.ro.items ++ [hi], optAppendBarcode st.ro.options "hold" hi.barcode⟩
          "videoReserve" hi.barcode hcov2 ⟨hi, hmem, rfl⟩
      · rw [if_neg hv]
        exact hcov2
    · rw [if_neg hja]
      have hjat : itemJustAdded = true := by
        cases itemJustAdded
        · exact absurd rfl hja
        · rfl
      have hmem : hi ∈ st.ro.items := hadd hjat
      have hcov2 : barcodesCovered ⟨st.ro.items,
          optAppendBarcode st.ro.options "hold" hi.barcode⟩ :=
        covered_optAppendBarcode ⟨st.ro.items, st.ro.options⟩ "hold" hi.barcode
          (by intro pr hpr b hb; exact h pr hpr b hb) ⟨hi, hmem, rfl⟩
      by_cases hv : item.isVideo = true
      · rw [if_pos hv]
        exact covered_optAppendBarcode
          ⟨st.ro.items, optAppendBarcode st.ro.options "hold" hi.barcode⟩
          "videoReserve" hi.barcode hcov2 ⟨hi, hmem, rfl⟩
      · rw [if_neg hv]
        exact hcov2
  · rw [if_neg hcond]
    exact h

/-- `trackATO` never touches the options object. -/
theorem trackATO_ro (item : availItem) (st : sirsiOptionsState) :
    (trackATO item st).ro = st.ro := by
  unfold trackATO
  split <;> rfl

/-- One loop iteration of `addSirsiRequestOptions` keeps coverage. -/
theorem addSirsiItemStep_covered (libs : List libraryRec) (lc : locationContext)
    (claims : v4Claims) (st : sirsiOptionsState) (item : availItem)
    (st' : sirsiOptionsState) (h : barcodesCovered st.ro)
    (hstep : addSirsiItemStep libs lc claims st item = .ok st') :
    barcodesCovered st'.ro := by
  have h0 : barcodesCovered (trackATO item st).ro := by rw [trackATO_ro]; exact h
  unfold addSirsiItemStep at hstep
  by_cases hun : item.unavailable = true
  · rw [if_pos hun] at hstep
    simp only [Except.ok.injEq] at hstep
    rw [← hstep]
    exact h0
  · rw [if_neg hun] at hstep
    simp only at hstep
    cases hnc : svcIsNonCirculating libs lc item with
    | error e => simp only [hnc] at hstep; exact absurd hstep (by simp)
    | ok nonCirc =>
      simp only [hnc] at hstep
      by_cases hb : nonCirc = true
      · rw [if_pos hb] at hstep
        simp only [Except.ok.injEq] at hstep
        rw [← hstep]
        exact (scanPath_covered claims (trackATO item st) item _ h0).1
      · rw [if_neg hb] at hstep
        simp only [Except.ok.injEq] at hstep
        rw [← hstep]
        exact holdPath_covered _ item _ _
          (scanPath_covered claims (trackATO item st) item _ h0).1
          (scanPath_covered claims (trackATO item st) item _ h0).2

/-- The item loop of `addSirsiRequestOptions` keeps coverage. -/
theorem addSirsiFold_covered (libs : List libraryRec) (lc : locationContext)
    (claims : v4Claims) :
    ∀ (items : List availItem) (st st' : sirsiOptionsState),
      barcodesCovered st.ro →
      items.foldlM (addSirsiItemStep libs lc claims) st = .ok st' →
      barcodesCovered st'.ro := by
  intro items
  induction items with
  | nil =>
    intro st st' h hf
    simp only [List.foldlM_nil] at hf
    cases hf
    exact h
  | cons it rest ih =>
    intro st st' h hf
    rw [List.foldlM_cons] at hf
    cases hstep : addSirsiItemStep libs lc claims st it with
    | error e =>
      rw [hstep] at hf
      rw [exceptBind_err] at hf
      exact absurd hf (by simp)
    | ok s1 =>
      rw [hstep] at hf
      rw [exceptBind_ok] at hf
      exact ih s1 st' (addSirsiItemStep_covered libs lc claims st it s1 h hstep) hf

/-- `addSirsiRequestOptions` keeps coverage. -/
theorem addSirsiRequestOptions_covered (libs : List libraryRec) (lc : locationContext)
    (claims : v4Claims) (pdaOracle : Option requestError) (pdaCreateURL : String → String)
    (items : List availItem) (ro0 ro' : requestOptionsT)
    (h0 : barcodesCovered ro0)
    (h : addSirsiRequestOptions libs lc claims pdaOracle pdaCreateURL items ro0 = .ok ro') :
    barcodesCovered ro' := by
  unfold addSirsiRequestOptions at h
  cases hf : List.foldlM (addSirsiItemStep libs lc claims)
      (⟨initialScanFlag claims, none, ro0⟩ : sirsiOptionsState) items with
  | error e =>
    rw [hf] at h
    rw [exceptBind_err] at h
    exact absurd h (by simp)
  | ok st =>
    rw [hf] at h
    rw [exceptBind_ok] at h
    have hst : barcodesCovered st.ro :=
      addSirsiFold_covered libs lc claims items _ st h0 hf
    cases hato : st.atoItem with
    | none =>
      simp only [hato, Except.ok.injEq] at h
      rw [← h]
      exact hst
    | some ato =>
      simp only [hato] at h
      cases hpda : pdaOracle with
      | some e =>
        simp only [hpda] at h
        by_cases h404 : e.statusCode = 404
        · rw [if_pos h404] at h
          simp only [Except.ok.injEq] at h
          rw [← h]
          exact covered_optInsert_emptyBarcodes st.ro "pda" _ hst rfl
        · rw [if_neg h404] at h
          simp only [Except.ok.injEq] at h
          rw [← h]
          exact hst
      | none =>
        simp only [hpda, Except.ok.injEq] at h
        rw [← h]
        exact covered_optInsert_emptyBarcodes st.ro "pda" _ hst rfl

/-- Pushing an item together with its own barcode keeps coverage. -/
theorem covered_push_item_and_barcode (ro : requestOptionsT) (k : String)
    (e : holdableItem) (h : barcodesCovered ro) :
    barcodesCovered ⟨ro.items ++ [e], optAppendBarcode ro.options k e.barcode⟩ :=
  covered_optAppendBarcode ⟨ro.items ++ [e], ro.options⟩ k e.barcode
    (covered_append_items ro.items [e] ro.options (fun pr hpr b hb => h pr hpr b hb))
    ⟨e, by simp, rfl⟩

/-- One aeon append keeps coverage. -/
theorem addAeonItemStep_covered (cleanLocalNote : String → String) (doc : solrDocument)
    (ro : requestOptionsT) (item : availItem) (h : barcodesCovered ro) :
    barcodesCovered (addAeonItemStep cleanLocalNote doc ro item) := by
  unfold addAeonItemStep
  by_cases hl : item.libraryID ≠ "SPEC-COLL"
  · rw [if_pos hl]; exact h
  · rw [if_neg hl]
    exact covered_push_item_and_barcode ro "aeon" _ h

/-- `addAeonRequestOptions` keeps coverage. -/
theorem addAeonRequestOptions_covered (cleanLocalNote : String → String)
    (aeonURL : String) (doc : solrDocument) (availItems : List availItem)
    (ro : requestOptionsT) (h : barcodesCovered ro) :
    barcodesCovered (addAeonRequestOptions cleanLocalNote aeonURL doc availItems ro) := by
  unfold addAeonRequestOptions
  by_cases hsc : (doc.library.contains "Special Collections") = false
  · rw [if_pos hsc]; exact h
  · rw [if_neg hsc]
    simp only
    have h1 : barcodesCovered ⟨ro.items, optInsert ro.options "aeon"
        ⟨false, false, [], aeonURL⟩⟩ :=
      covered_optInsert_emptyBarcodes ro "aeon" _ h rfl
    have hfold : ∀ (l : List availItem) (ro1 : requestOptionsT), barcodesCovered ro1 →
        barcodesCovered (l.foldl (addAeonItemStep cleanLocalNote doc) ro1) := by
      intro l
      induction l with
      | nil => intro ro1 h1; exact h1
      | cons it rest ih =>
        intro ro1 hro1
        rw [List.foldl_cons]
        exact ih _ (addAeonItemStep_covered cleanLocalNote doc ro1 it hro1)
    exact hfold availItems _ h1

/-- C5 counterexample: on two available, circulating items that share barcode
`B1` but differ in call number and volume, the derivation pipeline lists `B1`
in the hold option while the items list holds two entries with that barcode —
so the barcode does not resolve to exactly one entry. -/
theorem deriveRequestOptions_exactly_one_counterexample :
    deriveRequestOptions [] c5Lc c5Claims none (fun _ => "") (fun s => s) "" c5Doc
        [c5Item1, c5Item2] = .ok c5Result ∧
    optLookup c5Result.options "hold" = some c5HoldOpt ∧
    "B1" ∈ c5HoldOpt.itemBarcodes ∧
    c5Result.items.countP (fun e => e.barcode = "B1") = 2 := by
  refine ⟨by decide, by decide, by decide, by decide⟩

/-- C5 (amended): for every result of the derivation pipeline, every barcode
appearing in any option's barcode list occurs as the barcode of at least one
entry of the items list. -/
theorem deriveRequestOptions_barcodes_exist (libs : List libraryRec)
    (lc : locationContext) (claims : v4Claims) (pdaOracle : Option requestError)
    (pdaCreateURL : String → String) (cleanLocalNote : String → String)
    (aeonURL : String) (doc : solrDocument) (items : List availItem)
    (ro : requestOptionsT)
    (h : deriveRequestOptions libs lc claims pdaOracle pdaCreateURL cleanLocalNote
      aeonURL doc items = .ok ro) :
    ∀ name opt, optLookup ro.options name = some opt →
      ∀ b ∈ opt.itemBarcodes, ∃ e ∈ ro.items, e.barcode = b := by
  have h0 : barcodesCovered createRequestOptions := by
    intro pr hpr b hb
    unfold createRequestOptions at hpr
    simp only [List.mem_cons, List.not_mem_nil, or_false] at hpr
    rcases hpr with hpr | hpr | hpr | hpr <;> (rw [hpr] at hb; simp at hb)
  unfold deriveRequestOptions at h
  cases hs : addSirsiRequestOptions libs lc claims pdaOracle pdaCreateURL items
      createRequestOptions with
  | error e =>
    rw [hs] at h
    rw [exceptBind_err] at h
    exact absurd h (by simp)
  | ok ro1 =>
    rw [hs] at h
    rw [exceptBind_ok] at h
    simp only [Except.ok.injEq] at h
    have h1 := addSirsiRequestOptions_covered libs lc claims pdaOracle pdaCreateURL
      items createRequestOptions ro1 h0 hs
    have h2 := addAeonRequestOptions_covered cleanLocalNote aeonURL doc items ro1 h1
    rw [← h]
    intro name opt hopt b hb
    unfold optLookup at hopt
    cases hfind : List.find? (fun p => p.1 = name)
        (addAeonRequestOptions cleanLocalNote aeonURL doc items ro1).options with
    | none => rw [hfind] at hopt; simp at hopt
    | some pr =>
      rw [hfind] at hopt
      simp only [Option.map_some', Option.some_inj] at hopt
      have hmem := List.mem_of_find?_eq_some hfind
      rw [← hopt] at hb
      exact h2 pr hmem b hb

/-- Closed instance of `deriveRequestOptions_barcodes_exist` on the
counterexample run: the hold option's barcodes all occur among the items. -/
theorem deriveRequestOptions_barcodes_exist_witness :
    ∃ e ∈ c5Result.items, e.barcode = "B1" :=
  deriveRequestOptions_barcodes_exist [] c5Lc c5Claims none (fun _ => "") (fun s => s)
    "" c5Doc [c5Item1, c5Item2] c5Result (by decide) "hold" c5HoldOpt (by decide)
    "B1" (by decide)

end ILS
